import Mathlib

/-!
# lndprivatechannels: classifier and ratio aggregation

A shallow embedding of `lndprivatechannels.go`.

* The btcd packages (`wire`, `txscript`, `rpcclient`), the random source and the
  registry lookup are external to the repository.  Their answers are arguments
  of the model (`TxScript`, `Client`, `rand`, `isPublicChannel`); each field has
  the shape of the Go result it stands for.
* A Go call either returns or stops the process.  A call that stops the process
  is `Except.error` with the reason (`Fault`): `log.Fatal`, a nil dereference, an
  index out of range, or the panic of `rand.Intn` on a non-positive bound.
* `int64` values are `Int`.  The `float64` tallies hold whole numbers far below
  `2 ^ 53`, which float64 holds exactly; they and the ratio of a trial are given
  as rationals (`ℚ`).  The averaging of lines 99-103 is given twice: in exact
  arithmetic (`averageRatio`) and in float64 (`averageRatioFloat64`), where every
  operation rounds to the nearest float64 value.
* Log output is not modelled.
-/

namespace LndPrivateChannels

/-! ## Data model (btcd `wire`, `txscript`) -/

/-- Byte strings (`[]byte`). -/
abbrev Bytes := List Nat

/-- Block and transaction identifiers (`chainhash.Hash`). -/
abbrev Hash := Nat

/-- The script classes of `txscript.ScriptClass`. -/
inductive ScriptClass
  | NonStandardTy
  | PubKeyTy
  | PubKeyHashTy
  | WitnessV0PubKeyHashTy
  | ScriptHashTy
  | WitnessV0ScriptHashTy
  | MultiSigTy
  | NullDataTy
  deriving DecidableEq, Repr

/-- A reference to a previous output (`wire.OutPoint`). -/
structure OutPoint where
  Hash : Hash
  Index : Nat
  deriving DecidableEq, Repr

/-- A transaction input (`wire.TxIn`). -/
structure TxIn where
  PreviousOutPoint : OutPoint
  SignatureScript : Bytes
  Witness : List Bytes
  deriving DecidableEq, Repr

/-- A transaction output (`wire.TxOut`). -/
structure TxOut where
  Value : Int
  PkScript : Bytes
  deriving DecidableEq, Repr

/-- A transaction (`wire.MsgTx`). -/
structure MsgTx where
  TxIn : List TxIn
  TxOut : List TxOut
  deriving DecidableEq, Repr

/-- A block (`wire.MsgBlock`): the header's predecessor reference and the
transactions. -/
structure MsgBlock where
  PrevBlock : Hash
  Transactions : List MsgTx
  deriving DecidableEq, Repr

/-- The value returned by `txscript.ComputePkScript`, seen through its two
methods `Class()` and `Script()`. -/
structure PkScript where
  Class : ScriptClass
  Script : Bytes
  deriving DecidableEq, Repr

/-- The record `txscript.ScriptInfo`. -/
structure ScriptInfo where
  PkScriptClass : ScriptClass
  NumInputs : Int
  ExpectedInputs : Int
  SigOps : Int
  deriving DecidableEq, Repr

/-- The script library as the classifier uses it.  `ComputePkScript` is `none`
when the Go call returns an error.  `CalcScriptInfo` returns the Go pair: the
`*ScriptInfo` pointer (`none` is nil) and whether the error is set; btcd hands
back a nil pointer together with an error. -/
structure TxScript where
  ComputePkScript : Bytes → List Bytes → Option PkScript
  GetWitnessSigOpCount : Bytes → Bytes → List Bytes → Int
  CalcScriptInfo : Bytes → Bytes → List Bytes → Bool → Bool → Option ScriptInfo × Bool
  GetScriptClass : Bytes → ScriptClass

/-- The ledger node as the program uses it (`rpcclient.Client`); `none` is a
call that returns an error. -/
structure Client where
  GetBlockCount : Option Int
  GetBlockHash : Int → Option Hash
  GetBlock : Hash → Option MsgBlock
  GetRawTransaction : Hash → Option MsgTx

/-- The ways a call stops the process instead of returning. -/
inductive Fault
  | fatal
  | nilDereference
  | indexOutOfRange
  | intnInvalidArgument
  deriving DecidableEq, Repr

/-! ## Constants -/

/-- Window length of one trial. -/
def blocksInMonth : Nat := 4320

/-- Earliest height a trial may start from. -/
def startBlock : Int := 560000

/-! ## The classifier -/

/-- The method `wire.MsgTx.HasWitness`: some input carries witness data. -/
def HasWitness (tx : MsgTx) : Bool :=
  tx.TxIn.any (fun txIn => txIn.Witness.length != 0)

/-- The function `isLikelyChannelCloseTx` (source lines 112-154). -/
def isLikelyChannelCloseTx (txscript : TxScript) (tx : MsgTx) (client : Client) :
    Except Fault (Bool × Int) :=
  match tx.TxIn with
  | [txIn0] =>
    if tx.TxOut.length > 2 || txIn0.SignatureScript.length != 0 || !HasWitness tx then
      .ok (false, 0)
    else
      match txscript.ComputePkScript txIn0.SignatureScript txIn0.Witness with
      | none => .ok (false, 0)
      | some pkScript =>
        if pkScript.Class != ScriptClass.WitnessV0ScriptHashTy ||
            txscript.GetWitnessSigOpCount txIn0.SignatureScript pkScript.Script
              txIn0.Witness != 2 then
          .ok (false, 0)
        else
          match (txscript.CalcScriptInfo txIn0.SignatureScript pkScript.Script
              txIn0.Witness true true).1 with
          | none => .error Fault.nilDereference
          | some scriptInfo =>
            if scriptInfo.ExpectedInputs != 4 || scriptInfo.NumInputs != 4 then
              .ok (false, 0)
            else if tx.TxOut.any (fun txout =>
                txscript.GetScriptClass txout.PkScript != ScriptClass.WitnessV0ScriptHashTy &&
                txscript.GetScriptClass txout.PkScript != ScriptClass.WitnessV0PubKeyHashTy) then
              .ok (false, 0)
            else
              match client.GetRawTransaction txIn0.PreviousOutPoint.Hash with
              | none => .ok (false, 0)
              | some channelOpenTx =>
                match channelOpenTx.TxOut.get? txIn0.PreviousOutPoint.Index with
                | none => .error Fault.indexOutOfRange
                | some fundingOut =>
                  if fundingOut.Value > 50000000 then .ok (false, 0)
                  else .ok (true, fundingOut.Value)
  | _ => .ok (false, 0)

/-- The decision conditions of the classifier as the specification lists them
(section 4.2, items 1 to 8), for capacity `c`. -/
def CloseConditions (txscript : TxScript) (tx : MsgTx) (client : Client) (c : Int) : Prop :=
  ∃ txIn0 pkScript scriptInfo channelOpenTx fundingOut,
    tx.TxIn = [txIn0] ∧ tx.TxOut.length ≤ 2 ∧
    txIn0.SignatureScript = [] ∧ txIn0.Witness ≠ [] ∧
    txscript.ComputePkScript txIn0.SignatureScript txIn0.Witness = some pkScript ∧
    pkScript.Class = ScriptClass.WitnessV0ScriptHashTy ∧
    txscript.GetWitnessSigOpCount txIn0.SignatureScript pkScript.Script txIn0.Witness = 2 ∧
    (txscript.CalcScriptInfo txIn0.SignatureScript pkScript.Script txIn0.Witness
      true true).1 = some scriptInfo ∧
    scriptInfo.ExpectedInputs = 4 ∧ scriptInfo.NumInputs = 4 ∧
    (∀ txout ∈ tx.TxOut,
      txscript.GetScriptClass txout.PkScript = ScriptClass.WitnessV0ScriptHashTy ∨
      txscript.GetScriptClass txout.PkScript = ScriptClass.WitnessV0PubKeyHashTy) ∧
    client.GetRawTransaction txIn0.PreviousOutPoint.Hash = some channelOpenTx ∧
    channelOpenTx.TxOut.get? txIn0.PreviousOutPoint.Index = some fundingOut ∧
    fundingOut.Value = c ∧ c ≤ 50000000

/-- The script analysis is reached and hands back no `ScriptInfo`: the
transaction passes the count, witness, class and signature-operation checks and
`CalcScriptInfo` returns a nil pointer. -/
def AnalysisMissing (txscript : TxScript) (tx : MsgTx) : Prop :=
  ∃ txIn0 pkScript,
    tx.TxIn = [txIn0] ∧ tx.TxOut.length ≤ 2 ∧
    txIn0.SignatureScript = [] ∧ txIn0.Witness ≠ [] ∧
    txscript.ComputePkScript txIn0.SignatureScript txIn0.Witness = some pkScript ∧
    pkScript.Class = ScriptClass.WitnessV0ScriptHashTy ∧
    txscript.GetWitnessSigOpCount txIn0.SignatureScript pkScript.Script txIn0.Witness = 2 ∧
    (txscript.CalcScriptInfo txIn0.SignatureScript pkScript.Script txIn0.Witness
      true true).1 = none

/-- The fetched prior transaction has no output at the referenced index. -/
def FundingIndexMissing (tx : MsgTx) (client : Client) : Prop :=
  ∃ txIn0 channelOpenTx,
    tx.TxIn = [txIn0] ∧
    client.GetRawTransaction txIn0.PreviousOutPoint.Hash = some channelOpenTx ∧
    channelOpenTx.TxOut.get? txIn0.PreviousOutPoint.Index = none

/-- The call of `CalcScriptInfo` at source line 129 is reached with `pkScript`:
the transaction passed the checks of lines 114-128. -/
def AnalysisReached (txscript : TxScript) (tx : MsgTx) (txIn0 : TxIn) (pkScript : PkScript) :
    Prop :=
  tx.TxIn = [txIn0] ∧ tx.TxOut.length ≤ 2 ∧
  txIn0.SignatureScript = [] ∧ txIn0.Witness ≠ [] ∧
  txscript.ComputePkScript txIn0.SignatureScript txIn0.Witness = some pkScript ∧
  pkScript.Class = ScriptClass.WitnessV0ScriptHashTy ∧
  txscript.GetWitnessSigOpCount txIn0.SignatureScript pkScript.Script txIn0.Witness = 2

/-! ## The trial loop of `main` -/

/-- The three per-trial tallies of `main` (source lines 68-70). -/
structure Counters where
  channel_close_tx_cnt : ℚ
  public_channel_close_tx_cnt : ℚ
  public_channel_cap : Int
  deriving DecidableEq, Repr

/-- Signed 64-bit wrap-around, for `+=` on an `int64`. -/
def wrapInt64 (x : Int) : Int :=
  (x + 2 ^ 63) % 2 ^ 64 - 2 ^ 63

/-- The tallies at the start of a trial. -/
def zeroCounters : Counters :=
  { channel_close_tx_cnt := 0, public_channel_close_tx_cnt := 0, public_channel_cap := 0 }

/-- The body of the loop over a block's transactions (source lines 78-88).
`classify` is the classifier call and `isPublicChannel` the registry lookup on
the funding outpoint.  The expression `tx.TxIn[0]` stops the process on a
transaction without inputs. -/
def countTx (classify : MsgTx → Except Fault (Bool × Int)) (isPublicChannel : OutPoint → Bool)
    (c : Counters) (tx : MsgTx) : Except Fault Counters :=
  match classify tx with
  | .error f => .error f
  | .ok (isCloseTx, channelCapacity) =>
    if isCloseTx then
      match tx.TxIn with
      | [] => .error Fault.indexOutOfRange
      | txIn0 :: _ =>
        if isPublicChannel txIn0.PreviousOutPoint then
          .ok { channel_close_tx_cnt := c.channel_close_tx_cnt + 1,
                public_channel_close_tx_cnt := c.public_channel_close_tx_cnt + 1,
                public_channel_cap := wrapInt64 (c.public_channel_cap + channelCapacity) }
        else
          .ok { c with channel_close_tx_cnt := c.channel_close_tx_cnt + 1 }
    else
      .ok c

/-- The loop over the transactions of one block (source lines 77-89). -/
def scanTransactions (classify : MsgTx → Except Fault (Bool × Int))
    (isPublicChannel : OutPoint → Bool) : Counters → List MsgTx → Except Fault Counters
  | c, [] => .ok c
  | c, tx :: rest =>
    match countTx classify isPublicChannel c tx with
    | .error f => .error f
    | .ok c1 => scanTransactions classify isPublicChannel c1 rest

/-- The loop over the window (source lines 71-91), with the remaining number of
iterations as first argument.  Besides the tallies it returns the blocks it
fetched, in fetch order, each with the hash it was asked for. -/
def walkWindow (client : Client) (classify : MsgTx → Except Fault (Bool × Int))
    (isPublicChannel : OutPoint → Bool) :
    Nat → Hash → Counters → Except Fault (Counters × List (Hash × MsgBlock))
  | 0, _, c => .ok (c, [])
  | n + 1, block_hash, c =>
    match client.GetBlock block_hash with
    | none => .error Fault.fatal
    | some wire_block =>
      match scanTransactions classify isPublicChannel c wire_block.Transactions with
      | .error f => .error f
      | .ok c1 =>
        match walkWindow client classify isPublicChannel n wire_block.PrevBlock c1 with
        | .error f => .error f
        | .ok (c2, fetched) => .ok (c2, (block_hash, wire_block) :: fetched)

/-- The call `rand.Intn(n)` on the raw draw `raw`: a value in `[0, n)`, and a
panic when `n` is not positive. -/
def Intn (raw : Nat) (n : Int) : Except Fault Int :=
  if n ≤ 0 then .error Fault.intnInvalidArgument else .ok ((raw : Int) % n)

/-- One trial up to the end of its window (source lines 62-91): draw the height,
resolve its hash, walk the window. -/
def sampleWindow (client : Client) (classify : MsgTx → Except Fault (Bool × Int))
    (isPublicChannel : OutPoint → Bool) (best_height : Int) (raw : Nat) :
    Except Fault (Counters × List (Hash × MsgBlock)) :=
  match Intn raw (best_height - startBlock) with
  | .error f => .error f
  | .ok k =>
    match client.GetBlockHash (k + startBlock) with
    | none => .error Fault.fatal
    | some block_hash =>
      walkWindow client classify isPublicChannel blocksInMonth block_hash zeroCounters

/-- The end of a trial (source lines 92-97): push the ratio when a public close
was counted. -/
def recordRatio (estimates : List ℚ) (c : Counters) : List ℚ :=
  if c.public_channel_close_tx_cnt > 0 then
    estimates ++
      [(c.channel_close_tx_cnt - c.public_channel_close_tx_cnt) / c.public_channel_close_tx_cnt]
  else
    estimates

/-- One iteration of the loop over trials (source lines 61-98). -/
def trial (client : Client) (classify : MsgTx → Except Fault (Bool × Int))
    (isPublicChannel : OutPoint → Bool) (best_height : Int) (estimates : List ℚ) (raw : Nat) :
    Except Fault (List ℚ) :=
  match sampleWindow client classify isPublicChannel best_height raw with
  | .error f => .error f
  | .ok (c, _) => .ok (recordRatio estimates c)

/-- The loop over trials (source line 61): `n` iterations remain, `tr` is the
loop variable, `rand tr` the raw draw of trial `tr`. -/
def runTrials (client : Client) (classify : MsgTx → Except Fault (Bool × Int))
    (isPublicChannel : OutPoint → Bool) (best_height : Int) (rand : Nat → Nat) :
    Nat → Nat → List ℚ → Except Fault (List ℚ)
  | 0, _, estimates => .ok estimates
  | n + 1, tr, estimates =>
    match trial client classify isPublicChannel best_height estimates (rand tr) with
    | .error f => .error f
    | .ok estimates1 => runTrials client classify isPublicChannel best_height rand n (tr + 1) estimates1

/-! ## Aggregation -/

/-- The sum loop of source lines 99-102 in exact arithmetic; `sumRatiosFloat64`
is the loop with the rounding of float64. -/
def sumRatios (estimates : List ℚ) : ℚ :=
  estimates.foldl (fun acc e => acc + e) 0

/-- The average of source lines 99-103 in exact arithmetic: the sum over the
trial count; `averageRatioFloat64` is the average with the rounding of
float64. -/
def averageRatio (estimateTrials : Nat) (estimates : List ℚ) : ℚ :=
  sumRatios estimates / (estimateTrials : ℚ)

/-- The Go conversion `int(x)` of a `float64`: truncation toward zero. -/
def truncate (x : ℚ) : Int :=
  if 0 ≤ x then ⌊x⌋ else ⌈x⌉

/-- What a completed run has computed: the recorded samples, their average and
the printed estimate. -/
structure Report where
  estimates : List ℚ
  avg_ratio : ℚ
  estimate : Int
  deriving DecidableEq, Repr

/-- Source lines 99-107. -/
def summarize (estimateTrials : Nat) (currentPublicChannelCount : Int) (estimates : List ℚ) :
    Report :=
  { estimates := estimates,
    avg_ratio := averageRatio estimateTrials estimates,
    estimate := truncate ((currentPublicChannelCount : ℚ) * averageRatio estimateTrials estimates) }

/-- The function `main` with its two local constants as arguments: the trial
count and the known number of public channels. -/
def mainWith (estimateTrials : Nat) (currentPublicChannelCount : Int) (client : Client)
    (txscript : TxScript) (isPublicChannel : OutPoint → Bool) (rand : Nat → Nat) :
    Except Fault Report :=
  match client.GetBlockCount with
  | none => .error Fault.fatal
  | some best_height =>
    match runTrials client (fun tx => isLikelyChannelCloseTx txscript tx client) isPublicChannel
        best_height rand estimateTrials 0 [] with
    | .error f => .error f
    | .ok estimates => .ok (summarize estimateTrials currentPublicChannelCount estimates)

/-- The trial count of the source. -/
def estimateTrials : Nat := 10

/-- The public channel count of the source. -/
def currentPublicChannelCount : Int := 82182

/-- The function `main` (source lines 24-108). -/
def main (client : Client) (txscript : TxScript) (isPublicChannel : OutPoint → Bool)
    (rand : Nat → Nat) : Except Fault Report :=
  mainWith estimateTrials currentPublicChannelCount client txscript isPublicChannel rand

/-! ## The averaging of lines 99-103 in float64 -/

/-- Rounding of a rational to the nearest integer, ties to the even one. -/
def roundHalfEven (x : ℚ) : Int :=
  if x - ⌊x⌋ < 1 / 2 then ⌊x⌋
  else if 1 / 2 < x - ⌊x⌋ then ⌊x⌋ + 1
  else if ⌊x⌋ % 2 = 0 then ⌊x⌋
  else ⌊x⌋ + 1

/-- Rounding to the nearest multiple of `2 ^ g`, ties to the even multiple. -/
def roundToGrid (g : Int) (x : ℚ) : ℚ :=
  (roundHalfEven (x / 2 ^ g) : ℚ) * 2 ^ g

/-- The spacing exponent of float64 around `x`: 52 binary places below the
leading bit, and never below the subnormal spacing `2 ^ (-1074)`. -/
def gridExponent (x : ℚ) : Int :=
  max (Int.log 2 |x| - 52) (-1074)

/-- The float64 value of an exact result: IEEE 754 binary64 rounding to nearest,
ties to even.  Results of magnitude `2 ^ 1024` and more, which float64 turns
into an infinity, are outside this function; ratios and sums of counts stay far
below. -/
def roundFloat64 (x : ℚ) : ℚ :=
  roundToGrid (gridExponent x) x

/-- The sum loop of source lines 99-102 in float64: every `+=` rounds. -/
def sumRatiosFloat64 (estimates : List ℚ) : ℚ :=
  estimates.foldl (fun acc e => roundFloat64 (acc + e)) 0

/-- The average of source lines 99-103 in float64: the rounded sum over the
trial count, itself converted to float64, rounded. -/
def averageRatioFloat64 (estimateTrials : Nat) (estimates : List ℚ) : ℚ :=
  roundFloat64 (sumRatiosFloat64 estimates / roundFloat64 (estimateTrials : ℚ))

/-- The mean of the recorded samples in float64: the same sum over the number of
samples. -/
def meanFloat64 (estimates : List ℚ) : ℚ :=
  roundFloat64 (sumRatiosFloat64 estimates / roundFloat64 (estimates.length : ℚ))

/-- The samples as the list of source line 96 holds them: the quotient of line
95 is a float64 division of two whole tallies, so each recorded ratio is the
float64 value of the exact ratio. -/
def float64Samples (estimates : List ℚ) : List ℚ :=
  estimates.map roundFloat64

/-! ## Reading a window off the ledger -/

/-- The hash the window walk asks for at step `i` when it starts from `h`:
follow the predecessor reference `i` times. -/
def nthHash (client : Client) : Nat → Hash → Option Hash
  | 0, h => some h
  | i + 1, h =>
    match client.GetBlock h with
    | none => none
    | some b => nthHash client i b.PrevBlock

/-- The transactions of the `n` blocks starting at `h` and going backward, in
the order the walk meets them. -/
def windowTransactions (client : Client) : Nat → Hash → Option (List MsgTx)
  | 0, _ => some []
  | n + 1, h =>
    match client.GetBlock h with
    | none => none
    | some b =>
      match windowTransactions client n b.PrevBlock with
      | none => none
      | some txs => some (b.Transactions ++ txs)

/-- A transaction the classifier flags as a close. -/
def isFlagged (classify : MsgTx → Except Fault (Bool × Int)) (tx : MsgTx) : Bool :=
  match classify tx with
  | .ok (true, _) => true
  | _ => false

/-- A flagged transaction whose funding outpoint the registry knows. -/
def isConfirmed (classify : MsgTx → Except Fault (Bool × Int))
    (isPublicChannel : OutPoint → Bool) (tx : MsgTx) : Bool :=
  isFlagged classify tx &&
    match tx.TxIn with
    | [] => false
    | txIn0 :: _ => isPublicChannel txIn0.PreviousOutPoint

/-- The window a trial samples for the raw draw `raw` is fetched in full, the
classifier returns on each of its transactions, and it holds exactly `flagged`
flagged transactions of which exactly `confirmed` are known to the registry. -/
def WindowHolds (client : Client) (classify : MsgTx → Except Fault (Bool × Int))
    (isPublicChannel : OutPoint → Bool) (best_height : Int) (raw : Nat)
    (flagged confirmed : Nat) : Prop :=
  ∃ k h txs,
    Intn raw (best_height - startBlock) = .ok k ∧
    client.GetBlockHash (k + startBlock) = some h ∧
    windowTransactions client blocksInMonth h = some txs ∧
    (∀ tx ∈ txs, ∃ r, classify tx = .ok r) ∧
    txs.countP (isFlagged classify) = flagged ∧
    txs.countP (isConfirmed classify isPublicChannel) = confirmed

/-! ## Concrete inputs -/

/-- A pay-to-witness-script-hash locking script (shortened). -/
def wshScript : Bytes := [0, 32]

/-- A pay-to-witness-public-key-hash locking script (shortened). -/
def wpkhScript : Bytes := [0, 20]

/-- A two-of-two witness stack: empty marker, two signatures, witness script. -/
def closeWitness : List Bytes := [[], [48, 1], [48, 2], [82, 174]]

/-- An input spending output `0` of transaction `7`. -/
def closeIn : TxIn :=
  { PreviousOutPoint := { Hash := 7, Index := 0 }, SignatureScript := [], Witness := closeWitness }

/-- A cooperative close paying 600 and 300 out of the funding output. -/
def closeTx : MsgTx :=
  { TxIn := [closeIn],
    TxOut := [{ Value := 600, PkScript := wpkhScript }, { Value := 300, PkScript := wshScript }] }

/-- A transaction whose only output holds `v`. -/
def fundingTx (v : Int) : MsgTx :=
  { TxIn := [], TxOut := [{ Value := v, PkScript := wshScript }] }

/-- A script library that reports the two-of-two shape for every input. -/
def multisigScript : TxScript :=
  { ComputePkScript := fun _ _ =>
      some { Class := ScriptClass.WitnessV0ScriptHashTy, Script := wshScript },
    GetWitnessSigOpCount := fun _ _ _ => 2,
    CalcScriptInfo := fun _ _ witness _ _ =>
      (some { PkScriptClass := ScriptClass.WitnessV0ScriptHashTy,
              NumInputs := (witness.length : Int), ExpectedInputs := 4, SigOps := 2 }, false),
    GetScriptClass := fun script =>
      if script = wshScript then ScriptClass.WitnessV0ScriptHashTy
      else if script = wpkhScript then ScriptClass.WitnessV0PubKeyHashTy
      else ScriptClass.NonStandardTy }

/-- A node that knows transaction `7` as `fundingTx v` and serves no blocks. -/
def fundingNode (v : Int) : Client :=
  { GetBlockCount := none,
    GetBlockHash := fun _ => none,
    GetBlock := fun _ => none,
    GetRawTransaction := fun h => if h = 7 then some (fundingTx v) else none }

/-- A node that does not know the funding transaction. -/
def forgetfulNode : Client :=
  { GetBlockCount := none,
    GetBlockHash := fun _ => none,
    GetBlock := fun _ => none,
    GetRawTransaction := fun _ => none }

/-- A transaction like `closeTx` with a third output. -/
def threeOutTx : MsgTx :=
  { TxIn := [closeIn],
    TxOut := [{ Value := 600, PkScript := wpkhScript }, { Value := 200, PkScript := wshScript },
      { Value := 100, PkScript := wshScript }] }

/-- An input spending output `0` of transaction `8`. -/
def privateIn : TxIn :=
  { PreviousOutPoint := { Hash := 8, Index := 0 }, SignatureScript := [], Witness := closeWitness }

/-- A close of the channel funded by transaction `8`. -/
def privateTx : MsgTx :=
  { TxIn := [privateIn], TxOut := [{ Value := 1500, PkScript := wshScript }] }

/-- A node of height 600000 whose block at height `n` has hash `n` and
predecessor `n - 1`; block 560000 holds `closeTx` and `privateTx`, every other
block is empty; transactions `7` and `8` are the two funding transactions. -/
def sampleNode : Client :=
  { GetBlockCount := some 600000,
    GetBlockHash := fun n => some n.toNat,
    GetBlock := fun h =>
      some { PrevBlock := h - 1,
             Transactions := if h = 560000 then [closeTx, privateTx] else [] },
    GetRawTransaction := fun h =>
      if h = 7 then some (fundingTx 1000)
      else if h = 8 then some (fundingTx 2000)
      else none }

/-- The classifier of `main` on `sampleNode`. -/
def sampleClassify (tx : MsgTx) : Except Fault (Bool × Int) :=
  isLikelyChannelCloseTx multisigScript tx sampleNode

/-- A registry that knows the channel funded by transaction `7` only. -/
def knownRegistry (op : OutPoint) : Bool :=
  op.Hash == 7

/-- The samples the loop over trials records when trial `tr` counts
`(counts tr).1` closes of which `(counts tr).2` are public. -/
def expectedSamples (counts : Nat → Nat × Nat) : Nat → Nat → List ℚ → List ℚ
  | 0, _, estimates => estimates
  | n + 1, tr, estimates =>
    expectedSamples counts n (tr + 1)
      (recordRatio estimates
        { channel_close_tx_cnt := ((counts tr).1 : ℚ),
          public_channel_close_tx_cnt := ((counts tr).2 : ℚ),
          public_channel_cap := 0 })

/-- Raw draws that start the first four trials at block 560000 and the others
at block 565000. -/
def mixedRand (tr : Nat) : Nat :=
  if tr < 4 then 0 else 5000

/-- The counts of the trials on `sampleNode` under `mixedRand`. -/
def mixedCounts (tr : Nat) : Nat × Nat :=
  if tr < 4 then (2, 1) else (0, 0)

/-- The float64 value of `7 / 3`. -/
def thirdSample : ℚ := 5254199565265579 / 2251799813685248

/-- An input spending output `0` of transaction `100 + i`. -/
def crowdIn (i : Nat) : TxIn :=
  { PreviousOutPoint := { Hash := 100 + i, Index := 0 }, SignatureScript := [],
    Witness := closeWitness }

/-- A close of the channel funded by transaction `100 + i`. -/
def crowdTx (i : Nat) : MsgTx :=
  { TxIn := [crowdIn i], TxOut := [{ Value := 900, PkScript := wshScript }] }

/-- A node like `sampleNode` whose block 560000 holds ten closes, of the
channels funded by transactions `100` to `109`. -/
def crowdedNode : Client :=
  { GetBlockCount := some 600000,
    GetBlockHash := fun n => some n.toNat,
    GetBlock := fun h =>
      some { PrevBlock := h - 1,
             Transactions := if h = 560000 then (List.range 10).map crowdTx else [] },
    GetRawTransaction := fun _ => some (fundingTx 1000) }

/-- The classifier of `main` on `crowdedNode`. -/
def crowdClassify (tx : MsgTx) : Except Fault (Bool × Int) :=
  isLikelyChannelCloseTx multisigScript tx crowdedNode

/-- A registry that knows the channels funded by transactions `100` to `102`. -/
def crowdRegistry (op : OutPoint) : Bool :=
  decide (op.Hash < 103)

/-- Raw draws that start the first three trials at block 560000 and the others
at block 565000. -/
def crowdRand (tr : Nat) : Nat :=
  if tr < 3 then 0 else 5000

/-- The counts of the trials on `crowdedNode` under `crowdRand`. -/
def crowdCounts (tr : Nat) : Nat × Nat :=
  if tr < 3 then (10, 3) else (0, 0)

/-! ## The classifier: results -/

/-- With a single input, `HasWitness` looks at that input's witness. -/
theorem hasWitness_single (tx : MsgTx) (txIn0 : TxIn) (hin : tx.TxIn = [txIn0]) :
    HasWitness tx = true ↔ txIn0.Witness ≠ [] := by
  simp [HasWitness, hin]

/-- The accepting path of the classifier, hypothesis by hypothesis. -/
theorem classify_accepting_path (txscript : TxScript) (client : Client) (tx : MsgTx) (txIn0 : TxIn)
    (pkScript : PkScript) (scriptInfo : ScriptInfo) (errSet : Bool) (channelOpenTx : MsgTx)
    (fundingOut : TxOut) (c : Int)
    (hin : tx.TxIn = [txIn0]) (hout : tx.TxOut.length ≤ 2)
    (hsig : txIn0.SignatureScript = []) (hwit : txIn0.Witness ≠ [])
    (hpk : txscript.ComputePkScript txIn0.SignatureScript txIn0.Witness = some pkScript)
    (hclass : pkScript.Class = ScriptClass.WitnessV0ScriptHashTy)
    (hsigops : txscript.GetWitnessSigOpCount txIn0.SignatureScript pkScript.Script
      txIn0.Witness = 2)
    (hinfo : txscript.CalcScriptInfo txIn0.SignatureScript pkScript.Script txIn0.Witness
      true true = (some scriptInfo, errSet))
    (hexp : scriptInfo.ExpectedInputs = 4) (hnum : scriptInfo.NumInputs = 4)
    (houts : ∀ txout ∈ tx.TxOut,
      txscript.GetScriptClass txout.PkScript = ScriptClass.WitnessV0ScriptHashTy ∨
      txscript.GetScriptClass txout.PkScript = ScriptClass.WitnessV0PubKeyHashTy)
    (hfetch : client.GetRawTransaction txIn0.PreviousOutPoint.Hash = some channelOpenTx)
    (hfund : channelOpenTx.TxOut.get? txIn0.PreviousOutPoint.Index = some fundingOut)
    (hval : fundingOut.Value = c) (hc : c ≤ 50000000) :
    isLikelyChannelCloseTx txscript tx client = .ok (true, c) := by
  have hw : HasWitness tx = true := (hasWitness_single tx txIn0 hin).2 hwit
  have hany : (tx.TxOut.any fun txout =>
      txscript.GetScriptClass txout.PkScript != ScriptClass.WitnessV0ScriptHashTy &&
      txscript.GetScriptClass txout.PkScript != ScriptClass.WitnessV0PubKeyHashTy) = false := by
    rw [List.any_eq_false]
    intro txout hmem
    rcases houts txout hmem with h | h <;> simp [h]
  have hlen : ¬ 2 < tx.TxOut.length := by omega
  have hv : ¬ 50000000 < fundingOut.Value := by omega
  have hfund2 : channelOpenTx.TxOut[txIn0.PreviousOutPoint.Index]? = some fundingOut := by
    simpa using hfund
  rw [hsig] at hpk hsigops hinfo
  simp [isLikelyChannelCloseTx, hin, hlen, hsig, hw, hpk, hclass, hsigops, hinfo, hexp, hnum,
    hany, hfetch, hfund2, hval, hc]

/-- Claim C1: a transaction with exactly one input and at most two outputs, whose
input has an empty signature script and a non-empty witness, whose computed
script is of the witness-script-hash class with witness signature-operation count
2, whose script analysis reports `ExpectedInputs = 4` and `NumInputs = 4`, whose
outputs are all witness-script-hash or witness-public-key-hash, and whose prior
transaction is fetched with the referenced output holding `c ≤ 50,000,000`, is
classified `(true, c)`: the capacity is the funding output's value. -/
theorem close_tx_accepted (txscript : TxScript) (client : Client) (tx : MsgTx) (txIn0 : TxIn)
    (pkScript : PkScript) (scriptInfo : ScriptInfo) (errSet : Bool) (channelOpenTx : MsgTx)
    (fundingOut : TxOut) (c : Int)
    (hin : tx.TxIn = [txIn0]) (hout : tx.TxOut.length ≤ 2)
    (hsig : txIn0.SignatureScript = []) (hwit : txIn0.Witness ≠ [])
    (hpk : txscript.ComputePkScript txIn0.SignatureScript txIn0.Witness = some pkScript)
    (hclass : pkScript.Class = ScriptClass.WitnessV0ScriptHashTy)
    (hsigops : txscript.GetWitnessSigOpCount txIn0.SignatureScript pkScript.Script
      txIn0.Witness = 2)
    (hinfo : txscript.CalcScriptInfo txIn0.SignatureScript pkScript.Script txIn0.Witness
      true true = (some scriptInfo, errSet))
    (hexp : scriptInfo.ExpectedInputs = 4) (hnum : scriptInfo.NumInputs = 4)
    (houts : ∀ txout ∈ tx.TxOut,
      txscript.GetScriptClass txout.PkScript = ScriptClass.WitnessV0ScriptHashTy ∨
      txscript.GetScriptClass txout.PkScript = ScriptClass.WitnessV0PubKeyHashTy)
    (hfetch : client.GetRawTransaction txIn0.PreviousOutPoint.Hash = some channelOpenTx)
    (hfund : channelOpenTx.TxOut.get? txIn0.PreviousOutPoint.Index = some fundingOut)
    (hval : fundingOut.Value = c) (hc : c ≤ 50000000) :
    isLikelyChannelCloseTx txscript tx client = .ok (true, c) :=
  classify_accepting_path txscript client tx txIn0 pkScript scriptInfo errSet channelOpenTx
    fundingOut c hin hout hsig hwit hpk hclass hsigops hinfo hexp hnum houts hfetch hfund hval hc

/-- The witness of claim C1: `closeTx` pays out 600 and 300, its funding output
holds 1000, and the reported capacity is 1000. -/
theorem close_tx_accepted_witness :
    isLikelyChannelCloseTx multisigScript closeTx (fundingNode 1000) = .ok (true, 1000) :=
  close_tx_accepted multisigScript (fundingNode 1000) closeTx closeIn
    { Class := ScriptClass.WitnessV0ScriptHashTy, Script := wshScript }
    { PkScriptClass := ScriptClass.WitnessV0ScriptHashTy, NumInputs := 4, ExpectedInputs := 4,
      SigOps := 2 }
    false (fundingTx 1000) { Value := 1000, PkScript := wshScript } 1000
    rfl (by decide) rfl (by decide) rfl rfl rfl rfl rfl rfl (by decide) rfl rfl rfl (by decide)

/-! ## The classifier: every outcome -/

/-- The first guard of the classifier (source lines 114-117) in words. -/
theorem first_guard_passed (tx : MsgTx) (txIn0 : TxIn) (hin : tx.TxIn = [txIn0])
    (hg : ¬ (decide (tx.TxOut.length > 2) || txIn0.SignatureScript.length != 0 ||
      !HasWitness tx) = true) :
    tx.TxOut.length ≤ 2 ∧ txIn0.SignatureScript = [] ∧ txIn0.Witness ≠ [] := by
  simp at hg
  exact ⟨hg.1.1, hg.1.2, (hasWitness_single tx txIn0 hin).1 hg.2⟩

/-- The second guard of the classifier (source lines 124-128) in words. -/
theorem second_guard_passed (txscript : TxScript) (txIn0 : TxIn) (pkScript : PkScript)
    (hg : ¬ (pkScript.Class != ScriptClass.WitnessV0ScriptHashTy ||
      txscript.GetWitnessSigOpCount txIn0.SignatureScript pkScript.Script
        txIn0.Witness != 2) = true) :
    pkScript.Class = ScriptClass.WitnessV0ScriptHashTy ∧
    txscript.GetWitnessSigOpCount txIn0.SignatureScript pkScript.Script txIn0.Witness = 2 := by
  simpa using hg

/-- The four ways a call of the classifier ends: it accepts, it rejects with
`(false, 0)`, it dereferences the nil result of a failed script analysis, or it
indexes the prior transaction out of range.  The last two happen exactly in the
situations `AnalysisMissing` and `FundingIndexMissing` describe. -/
theorem classify_outcomes (txscript : TxScript) (tx : MsgTx) (client : Client) :
    (∃ c, isLikelyChannelCloseTx txscript tx client = .ok (true, c) ∧
      CloseConditions txscript tx client c) ∨
    isLikelyChannelCloseTx txscript tx client = .ok (false, 0) ∨
    (isLikelyChannelCloseTx txscript tx client = .error Fault.nilDereference ∧
      AnalysisMissing txscript tx) ∨
    (isLikelyChannelCloseTx txscript tx client = .error Fault.indexOutOfRange ∧
      FundingIndexMissing tx client) := by
  unfold isLikelyChannelCloseTx
  split
  · rename_i txIn0 hin
    split
    · exact Or.inr (Or.inl rfl)
    · rename_i hg
      obtain ⟨hlen, hsig, hwit⟩ := first_guard_passed tx txIn0 hin hg
      split
      · exact Or.inr (Or.inl rfl)
      · rename_i pkScript hpk
        split
        · exact Or.inr (Or.inl rfl)
        · rename_i hg2
          obtain ⟨hclass, hops⟩ := second_guard_passed txscript txIn0 pkScript hg2
          split
          · rename_i hsi
            exact Or.inr (Or.inr (Or.inl
              ⟨rfl, txIn0, pkScript, hin, hlen, hsig, hwit, hpk, hclass, hops, hsi⟩))
          · rename_i scriptInfo hsi
            split
            · exact Or.inr (Or.inl rfl)
            · rename_i hg3
              split
              · exact Or.inr (Or.inl rfl)
              · rename_i hg4
                split
                · exact Or.inr (Or.inl rfl)
                · rename_i channelOpenTx hfetch
                  split
                  · rename_i hfund
                    exact Or.inr (Or.inr (Or.inr
                      ⟨rfl, txIn0, channelOpenTx, hin, hfetch, hfund⟩))
                  · rename_i fundingOut hfund
                    split
                    · exact Or.inr (Or.inl rfl)
                    · rename_i hg5
                      refine Or.inl ⟨fundingOut.Value, rfl, txIn0, pkScript, scriptInfo,
                        channelOpenTx, fundingOut, hin, hlen, hsig, hwit, hpk, hclass, hops,
                        hsi, ?_, ?_, ?_, hfetch, hfund, rfl, ?_⟩
                      · simp at hg3
                        exact hg3.1
                      · simp at hg3
                        exact hg3.2
                      · simp at hg4
                        intro txout hmem
                        by_cases hc : txscript.GetScriptClass txout.PkScript =
                            ScriptClass.WitnessV0ScriptHashTy
                        · exact Or.inl hc
                        · exact Or.inr (hg4 txout hmem hc)
                      · omega
  · exact Or.inr (Or.inl rfl)

/-- The classifier answers `(true, c)` exactly when the decision conditions hold
for `c`. -/
theorem accepted_iff_conditions (txscript : TxScript) (tx : MsgTx) (client : Client) (c : Int) :
    isLikelyChannelCloseTx txscript tx client = .ok (true, c) ↔
      CloseConditions txscript tx client c := by
  constructor
  · intro h
    rcases classify_outcomes txscript tx client with ⟨d, hd, hcond⟩ | h2 | ⟨h2, _⟩ | ⟨h2, _⟩
    · rw [h] at hd
      have hcd : c = d := by simpa using hd
      rw [hcd]
      exact hcond
    · rw [h] at h2
      simp at h2
    · rw [h] at h2
      simp at h2
    · rw [h] at h2
      simp at h2
  · rintro ⟨txIn0, pkScript, scriptInfo, channelOpenTx, fundingOut, hin, hout, hsig, hwit, hpk,
      hclass, hops, hsi, hexp, hnum, houts, hfetch, hfund, hval, hc⟩
    exact classify_accepting_path txscript client tx txIn0 pkScript scriptInfo
      (txscript.CalcScriptInfo txIn0.SignatureScript pkScript.Script txIn0.Witness true true).2
      channelOpenTx fundingOut c hin hout hsig hwit hpk hclass hops
      (Prod.ext hsi rfl) hexp hnum houts hfetch hfund hval hc

/-- A returned result that is not an acceptance is `(false, 0)`: a non-zero
capacity only comes with `true`. -/
theorem returned_false_has_zero (txscript : TxScript) (tx : MsgTx) (client : Client)
    (b : Bool) (c : Int) (h : isLikelyChannelCloseTx txscript tx client = .ok (b, c)) :
    b = true ∨ (b = false ∧ c = 0) := by
  rcases classify_outcomes txscript tx client with ⟨d, hd, _⟩ | h2 | ⟨h2, _⟩ | ⟨h2, _⟩
  · rw [h] at hd
    simp at hd
    exact Or.inl hd.1
  · rw [h] at h2
    simp at h2
    exact Or.inr h2
  · rw [h] at h2
    simp at h2
  · rw [h] at h2
    simp at h2

/-- A transaction that does not have exactly one input is rejected with
`(false, 0)`; in particular every transaction with more than one input. -/
theorem rejected_unless_one_input (txscript : TxScript) (tx : MsgTx) (client : Client)
    (h : tx.TxIn.length ≠ 1) :
    isLikelyChannelCloseTx txscript tx client = .ok (false, 0) := by
  unfold isLikelyChannelCloseTx
  split
  · rename_i txIn0 hin
    simp [hin] at h
  · rfl

/-- Whenever the script analysis hands back a `ScriptInfo` when it is reached and
the fetched prior transaction has the referenced output, the classifier returns:
`(true, c)` under the decision conditions and `(false, 0)` otherwise. -/
theorem classify_returns (txscript : TxScript) (tx : MsgTx) (client : Client)
    (hA : ¬ AnalysisMissing txscript tx) (hI : ¬ FundingIndexMissing tx client) :
    (∃ c, isLikelyChannelCloseTx txscript tx client = .ok (true, c) ∧
      CloseConditions txscript tx client c) ∨
    (isLikelyChannelCloseTx txscript tx client = .ok (false, 0) ∧
      ¬ ∃ c, CloseConditions txscript tx client c) := by
  rcases classify_outcomes txscript tx client with h | h | ⟨_, h⟩ | ⟨_, h⟩
  · exact Or.inl h
  · refine Or.inr ⟨h, ?_⟩
    rintro ⟨c, hc⟩
    rw [(accepted_iff_conditions txscript tx client c).2 hc] at h
    simp at h
  · exact absurd h hA
  · exact absurd h hI

/-! ## The classifier: errors of its collaborators -/

/-- An error of `ComputePkScript` is answered with `(false, 0)`. -/
theorem script_error_rejected (txscript : TxScript) (tx : MsgTx) (client : Client)
    (txIn0 : TxIn) (hin : tx.TxIn = [txIn0])
    (hpk : txscript.ComputePkScript txIn0.SignatureScript txIn0.Witness = none) :
    isLikelyChannelCloseTx txscript tx client = .ok (false, 0) := by
  rcases classify_outcomes txscript tx client with ⟨c, _, hc⟩ | h | ⟨_, hm⟩ | ⟨h, _, _⟩
  · obtain ⟨t, pk, _, _, _, hin2, _, _, _, hpk2, _⟩ := hc
    rw [hin] at hin2
    obtain rfl : txIn0 = t := by simpa using hin2
    rw [hpk] at hpk2
    simp at hpk2
  · exact h
  · obtain ⟨t, pk, hin2, _, _, _, hpk2, _⟩ := hm
    rw [hin] at hin2
    obtain rfl : txIn0 = t := by simpa using hin2
    rw [hpk] at hpk2
    simp at hpk2
  · exfalso
    unfold isLikelyChannelCloseTx at h
    simp [hin, hpk] at h

/-- An error of `GetRawTransaction` is answered with `(false, 0)` whenever the
call is reached or an earlier check already rejected. -/
theorem fetch_error_rejected (txscript : TxScript) (tx : MsgTx) (client : Client)
    (txIn0 : TxIn) (hin : tx.TxIn = [txIn0]) (hA : ¬ AnalysisMissing txscript tx)
    (hfetch : client.GetRawTransaction txIn0.PreviousOutPoint.Hash = none) :
    isLikelyChannelCloseTx txscript tx client = .ok (false, 0) := by
  rcases classify_outcomes txscript tx client with ⟨c, _, hc⟩ | h | ⟨_, hm⟩ | ⟨_, hm⟩
  · obtain ⟨t, _, _, _, _, hin2, _, _, _, _, _, _, _, _, _, _, hf2, _⟩ := hc
    rw [hin] at hin2
    obtain rfl : txIn0 = t := by simpa using hin2
    rw [hfetch] at hf2
    simp at hf2
  · exact h
  · exact absurd hm hA
  · obtain ⟨t, _, hin2, hf2, _⟩ := hm
    rw [hin] at hin2
    obtain rfl : txIn0 = t := by simpa using hin2
    rw [hfetch] at hf2
    simp at hf2

/-! ## The classifier: the capacity cutoff -/

/-- A funding value above 50,000,000 is rejected with `(false, 0)`, whatever the
scripts look like, as long as the script analysis hands back a `ScriptInfo` when
it is reached. -/
theorem above_cutoff_rejected (txscript : TxScript) (tx : MsgTx) (client : Client)
    (txIn0 : TxIn) (channelOpenTx : MsgTx) (fundingOut : TxOut)
    (hin : tx.TxIn = [txIn0])
    (hfetch : client.GetRawTransaction txIn0.PreviousOutPoint.Hash = some channelOpenTx)
    (hfund : channelOpenTx.TxOut.get? txIn0.PreviousOutPoint.Index = some fundingOut)
    (hval : fundingOut.Value > 50000000) (hA : ¬ AnalysisMissing txscript tx) :
    isLikelyChannelCloseTx txscript tx client = .ok (false, 0) := by
  rcases classify_outcomes txscript tx client with ⟨c, _, hc⟩ | h | ⟨_, hm⟩ | ⟨_, hm⟩
  · obtain ⟨t, _, _, o, f, hin2, _, _, _, _, _, _, _, _, _, _, hf2, hfd2, hv2, hle⟩ := hc
    rw [hin] at hin2
    obtain rfl : txIn0 = t := by simpa using hin2
    rw [hfetch] at hf2
    obtain rfl : channelOpenTx = o := by simpa using hf2
    rw [hfund] at hfd2
    obtain rfl : fundingOut = f := by simpa using hfd2
    omega
  · exact h
  · exact absurd hm hA
  · obtain ⟨t, o, hin2, hf2, hnone⟩ := hm
    rw [hin] at hin2
    obtain rfl : txIn0 = t := by simpa using hin2
    rw [hfetch] at hf2
    obtain rfl : channelOpenTx = o := by simpa using hf2
    rw [hfund] at hnone
    simp at hnone

/-- A funding value of exactly 50,000,000 passes the cutoff. -/
theorem at_cutoff_accepted :
    isLikelyChannelCloseTx multisigScript closeTx (fundingNode 50000000) =
      .ok (true, 50000000) := by
  rfl

/-- One more unit is rejected. -/
theorem just_above_cutoff_rejected :
    isLikelyChannelCloseTx multisigScript closeTx (fundingNode 50000001) = .ok (false, 0) := by
  rfl

/-! ## The classifier: the three claims on its decision -/

/-- The library `multisigScript` hands back a `ScriptInfo` on every call. -/
theorem multisig_analysis_present (tx : MsgTx) : ¬ AnalysisMissing multisigScript tx := by
  rintro ⟨txIn0, pkScript, _, _, _, _, _, _, _, hsi⟩
  simp [multisigScript] at hsi

/-- On `fundingNode v`, a transaction whose only input is `closeIn` refers to an
output the fetched prior transaction holds. -/
theorem fundingNode_index_present (tx : MsgTx) (v : Int) (hin : tx.TxIn = [closeIn]) :
    ¬ FundingIndexMissing tx (fundingNode v) := by
  rintro ⟨txIn0, channelOpenTx, hin2, hfetch, hnone⟩
  rw [hin] at hin2
  obtain rfl : closeIn = txIn0 := by simpa using hin2
  have hf : (fundingNode v).GetRawTransaction closeIn.PreviousOutPoint.Hash =
      some (fundingTx v) := rfl
  rw [hf] at hfetch
  obtain rfl : fundingTx v = channelOpenTx := by simpa using hfetch
  simp [fundingTx, closeIn] at hnone

/-- Claim C2: whenever the script analysis hands back a `ScriptInfo` at line 129
(as btcd does for the empty signature script and the script `ComputePkScript`
built) and a fetched prior transaction holds the referenced output (as on a
valid ledger), the classifier returns; it returns `(true, c)` exactly when all
decision conditions hold for `c`; when no capacity satisfies them it returns
exactly `(false, 0)`; a transaction with more than one input is rejected; and a
returned capacity other than zero comes with `true`. -/
theorem classifier_decision (txscript : TxScript) (tx : MsgTx) (client : Client)
    (hA : ¬ AnalysisMissing txscript tx) (hI : ¬ FundingIndexMissing tx client) :
    (∃ r, isLikelyChannelCloseTx txscript tx client = .ok r) ∧
    (∀ c, isLikelyChannelCloseTx txscript tx client = .ok (true, c) ↔
      CloseConditions txscript tx client c) ∧
    ((¬ ∃ c, CloseConditions txscript tx client c) →
      isLikelyChannelCloseTx txscript tx client = .ok (false, 0)) ∧
    (1 < tx.TxIn.length → isLikelyChannelCloseTx txscript tx client = .ok (false, 0)) ∧
    (∀ b c, isLikelyChannelCloseTx txscript tx client = .ok (b, c) → c ≠ 0 → b = true) := by
  refine ⟨?_, ?_, ?_, ?_, ?_⟩
  · rcases classify_returns txscript tx client hA hI with ⟨c, h, _⟩ | ⟨h, _⟩
    · exact ⟨(true, c), h⟩
    · exact ⟨(false, 0), h⟩
  · exact accepted_iff_conditions txscript tx client
  · intro hnone
    rcases classify_returns txscript tx client hA hI with ⟨c, _, hc⟩ | ⟨h, _⟩
    · exact absurd ⟨c, hc⟩ hnone
    · exact h
  · intro hlen
    exact rejected_unless_one_input txscript tx client (by omega)
  · intro b c h hc
    rcases returned_false_has_zero txscript tx client b c h with hb | ⟨_, h0⟩
    · exact hb
    · exact absurd h0 hc

/-- The witness of claim C2: `threeOutTx` has three outputs, so no capacity
satisfies the decision conditions, and it is rejected with `(false, 0)`. -/
theorem classifier_decision_witness :
    (¬ ∃ c, CloseConditions multisigScript threeOutTx (fundingNode 1000) c) ∧
    isLikelyChannelCloseTx multisigScript threeOutTx (fundingNode 1000) = .ok (false, 0) := by
  have h := classifier_decision multisigScript threeOutTx (fundingNode 1000)
    (multisig_analysis_present threeOutTx) (fundingNode_index_present threeOutTx 1000 rfl)
  have hno : ¬ ∃ c, CloseConditions multisigScript threeOutTx (fundingNode 1000) c := by
    rintro ⟨c, hc⟩
    have hacc := (h.2.1 c).2 hc
    have hrej : isLikelyChannelCloseTx multisigScript threeOutTx (fundingNode 1000) =
        .ok (false, 0) := rfl
    rw [hrej] at hacc
    simp at hacc
  exact ⟨hno, h.2.2.1 hno⟩

/-- Claim C3: a transaction whose referenced funding output holds more than
50,000,000 is rejected with `(false, 0)` whatever its scripts are classified as
(whenever the script analysis, if reached, hands back a `ScriptInfo`, as btcd
does); a funding value of exactly 50,000,000 is accepted when the other
conditions hold. -/
theorem funding_above_cutoff_rejected (txscript : TxScript) (tx : MsgTx) (client : Client) :
    (¬ AnalysisMissing txscript tx →
      (∀ txIn0, tx.TxIn = [txIn0] → ∃ channelOpenTx fundingOut,
        client.GetRawTransaction txIn0.PreviousOutPoint.Hash = some channelOpenTx ∧
        channelOpenTx.TxOut.get? txIn0.PreviousOutPoint.Index = some fundingOut ∧
        fundingOut.Value > 50000000) →
      isLikelyChannelCloseTx txscript tx client = .ok (false, 0)) ∧
    (∀ txIn0 pkScript scriptInfo channelOpenTx fundingOut,
      AnalysisReached txscript tx txIn0 pkScript →
      (txscript.CalcScriptInfo txIn0.SignatureScript pkScript.Script txIn0.Witness
        true true).1 = some scriptInfo →
      scriptInfo.ExpectedInputs = 4 → scriptInfo.NumInputs = 4 →
      (∀ txout ∈ tx.TxOut,
        txscript.GetScriptClass txout.PkScript = ScriptClass.WitnessV0ScriptHashTy ∨
        txscript.GetScriptClass txout.PkScript = ScriptClass.WitnessV0PubKeyHashTy) →
      client.GetRawTransaction txIn0.PreviousOutPoint.Hash = some channelOpenTx →
      channelOpenTx.TxOut.get? txIn0.PreviousOutPoint.Index = some fundingOut →
      fundingOut.Value = 50000000 →
      isLikelyChannelCloseTx txscript tx client = .ok (true, 50000000)) := by
  constructor
  · intro hA hfund
    by_cases hlen : tx.TxIn.length = 1
    · obtain ⟨txIn0, hin⟩ := List.length_eq_one.1 hlen
      obtain ⟨channelOpenTx, fundingOut, hfetch, hget, hval⟩ := hfund txIn0 hin
      exact above_cutoff_rejected txscript tx client txIn0 channelOpenTx fundingOut hin hfetch
        hget hval hA
    · exact rejected_unless_one_input txscript tx client hlen
  · intro txIn0 pkScript scriptInfo channelOpenTx fundingOut hreach hsi hexp hnum houts hfetch
      hget hval
    obtain ⟨hin, hout, hsig, hwit, hpk, hclass, hops⟩ := hreach
    exact classify_accepting_path txscript client tx txIn0 pkScript scriptInfo
      (txscript.CalcScriptInfo txIn0.SignatureScript pkScript.Script txIn0.Witness true true).2
      channelOpenTx fundingOut 50000000 hin hout hsig hwit hpk hclass hops
      (Prod.ext hsi rfl) hexp hnum houts hfetch hget hval (le_refl _)

/-- The witness of claim C3: `closeTx` is rejected when its funding output holds
60,000,000 and accepted with capacity 50,000,000 when it holds exactly that. -/
theorem funding_above_cutoff_rejected_witness :
    isLikelyChannelCloseTx multisigScript closeTx (fundingNode 60000000) = .ok (false, 0) ∧
    isLikelyChannelCloseTx multisigScript closeTx (fundingNode 50000000) =
      .ok (true, 50000000) := by
  constructor
  · refine (funding_above_cutoff_rejected multisigScript closeTx (fundingNode 60000000)).1
      (multisig_analysis_present closeTx) ?_
    intro txIn0 hin
    obtain rfl : closeIn = txIn0 := by simpa [closeTx] using hin
    exact ⟨fundingTx 60000000, { Value := 60000000, PkScript := wshScript }, rfl, rfl,
      by decide⟩
  · exact (funding_above_cutoff_rejected multisigScript closeTx (fundingNode 50000000)).2
      closeIn { Class := ScriptClass.WitnessV0ScriptHashTy, Script := wshScript }
      { PkScriptClass := ScriptClass.WitnessV0ScriptHashTy, NumInputs := 4, ExpectedInputs := 4,
        SigOps := 2 }
      (fundingTx 50000000) { Value := 50000000, PkScript := wshScript }
      ⟨rfl, by decide, rfl, by decide, rfl, rfl, rfl⟩ rfl rfl rfl (by decide) rfl rfl rfl

/-- Claim C4: for a transaction with one input, an error of a collaborator is
answered with `(false, 0)`, not with a fault: an error of `ComputePkScript`, an
error of `GetRawTransaction`, and an error flag of `CalcScriptInfo`.  The
hypothesis `hlib` is the behaviour of the library at line 129: on the empty
signature script and the script `ComputePkScript` built, the analysis hands back
a `ScriptInfo` and no error, so the error the code does not test is never set
when line 131 runs. -/
theorem collaborator_errors_rejected (txscript : TxScript) (tx : MsgTx) (client : Client)
    (txIn0 : TxIn) (hin : tx.TxIn = [txIn0])
    (hlib : ∀ pkScript, AnalysisReached txscript tx txIn0 pkScript →
      ∃ scriptInfo, txscript.CalcScriptInfo txIn0.SignatureScript pkScript.Script
        txIn0.Witness true true = (some scriptInfo, false))
    (herr : txscript.ComputePkScript txIn0.SignatureScript txIn0.Witness = none ∨
      (∃ pkScript, txscript.ComputePkScript txIn0.SignatureScript txIn0.Witness =
          some pkScript ∧
        (txscript.CalcScriptInfo txIn0.SignatureScript pkScript.Script txIn0.Witness
          true true).2 = true) ∨
      client.GetRawTransaction txIn0.PreviousOutPoint.Hash = none) :
    isLikelyChannelCloseTx txscript tx client = .ok (false, 0) := by
  have hA : ¬ AnalysisMissing txscript tx := by
    rintro ⟨t, pkScript, hin2, hout, hsig, hwit, hpk, hclass, hops, hsi⟩
    have ht : txIn0 = t := by
      rw [hin] at hin2
      simpa using hin2
    subst ht
    obtain ⟨scriptInfo, hinfo⟩ := hlib pkScript ⟨hin, hout, hsig, hwit, hpk, hclass, hops⟩
    rw [hinfo] at hsi
    simp at hsi
  rcases herr with hnone | ⟨pkScript, hpk, hflag⟩ | hfetch
  · exact script_error_rejected txscript tx client txIn0 hin hnone
  · rcases classify_outcomes txscript tx client with ⟨c, _, hc⟩ | h | ⟨_, hm⟩ | ⟨h, _⟩
    · obtain ⟨t, pk, _, _, _, hin2, hout, hsig, hwit, hpk2, hclass, hops, _⟩ := hc
      have ht : txIn0 = t := by
        rw [hin] at hin2
        simpa using hin2
      subst ht
      rw [hpk] at hpk2
      obtain rfl : pkScript = pk := by simpa using hpk2
      obtain ⟨scriptInfo, hinfo⟩ := hlib pkScript ⟨hin, hout, hsig, hwit, hpk, hclass, hops⟩
      rw [hinfo] at hflag
      simp at hflag
    · exact h
    · exact absurd hm hA
    · exfalso
      unfold isLikelyChannelCloseTx at h
      simp only [hin, hpk] at h
      split at h
      · simp at h
      · rename_i hg
        obtain ⟨hout, hsig, hwit⟩ := first_guard_passed tx txIn0 hin hg
        split at h
        · simp at h
        · rename_i hg2
          obtain ⟨hclass, hops⟩ := second_guard_passed txscript txIn0 pkScript hg2
          obtain ⟨scriptInfo, hinfo⟩ := hlib pkScript ⟨hin, hout, hsig, hwit, hpk, hclass, hops⟩
          rw [hinfo] at hflag
          simp at hflag
  · exact fetch_error_rejected txscript tx client txIn0 hin hA hfetch

/-- The witness of claim C4: `closeTx` on a node that does not know the funding
transaction is rejected with `(false, 0)`. -/
theorem collaborator_errors_rejected_witness :
    isLikelyChannelCloseTx multisigScript closeTx forgetfulNode = .ok (false, 0) :=
  collaborator_errors_rejected multisigScript closeTx forgetfulNode closeIn rfl
    (fun _ _ => ⟨_, rfl⟩) (Or.inr (Or.inr rfl))

/-! ## The tallies of a window -/

/-- The classifier only flags transactions with exactly one input, so the
registry query `tx.TxIn[0]` of `main` is in range. -/
theorem flagged_has_input (txscript : TxScript) (client : Client) (tx : MsgTx) (c : Int)
    (h : isLikelyChannelCloseTx txscript tx client = .ok (true, c)) : tx.TxIn ≠ [] := by
  obtain ⟨txIn0, _, _, _, _, hin, _⟩ := (accepted_iff_conditions txscript tx client c).1 h
  simp [hin]

/-- One transaction moves the tallies by the two indicator values. -/
theorem countTx_counts (classify : MsgTx → Except Fault (Bool × Int))
    (isPublicChannel : OutPoint → Bool)
    (hin : ∀ tx c, classify tx = .ok (true, c) → tx.TxIn ≠ [])
    (c : Counters) (tx : MsgTx) (r : Bool × Int) (hr : classify tx = .ok r) :
    ∃ c1, countTx classify isPublicChannel c tx = .ok c1 ∧
      c1.channel_close_tx_cnt =
        c.channel_close_tx_cnt + (if isFlagged classify tx then 1 else 0) ∧
      c1.public_channel_close_tx_cnt =
        c.public_channel_close_tx_cnt +
          (if isConfirmed classify isPublicChannel tx then 1 else 0) := by
  obtain ⟨b, cap⟩ := r
  cases b with
  | false =>
    refine ⟨c, ?_, ?_, ?_⟩
    · simp [countTx, hr]
    · simp [isFlagged, hr]
    · simp [isConfirmed, isFlagged, hr]
  | true =>
    have hne := hin tx cap hr
    cases htx : tx.TxIn with
    | nil => exact absurd htx hne
    | cons txIn0 rest =>
      by_cases hp : isPublicChannel txIn0.PreviousOutPoint = true
      · refine ⟨{ channel_close_tx_cnt := c.channel_close_tx_cnt + 1,
                  public_channel_close_tx_cnt := c.public_channel_close_tx_cnt + 1,
                  public_channel_cap := wrapInt64 (c.public_channel_cap + cap) }, ?_, ?_, ?_⟩
        · simp [countTx, hr, htx, hp]
        · simp [isFlagged, hr]
        · simp [isConfirmed, isFlagged, hr, htx, hp]
      · refine ⟨{ c with channel_close_tx_cnt := c.channel_close_tx_cnt + 1 }, ?_, ?_, ?_⟩
        · simp [countTx, hr, htx, hp]
        · simp [isFlagged, hr]
        · simp [isConfirmed, isFlagged, hr, htx, hp]

/-- The scan of a list of transactions counts the flagged and the confirmed. -/
theorem scan_counts (classify : MsgTx → Except Fault (Bool × Int))
    (isPublicChannel : OutPoint → Bool)
    (hin : ∀ tx c, classify tx = .ok (true, c) → tx.TxIn ≠ []) :
    ∀ (txs : List MsgTx) (c : Counters), (∀ tx ∈ txs, ∃ r, classify tx = .ok r) →
      ∃ c1, scanTransactions classify isPublicChannel c txs = .ok c1 ∧
        c1.channel_close_tx_cnt =
          c.channel_close_tx_cnt + (txs.countP (isFlagged classify) : ℚ) ∧
        c1.public_channel_close_tx_cnt =
          c.public_channel_close_tx_cnt +
            (txs.countP (isConfirmed classify isPublicChannel) : ℚ) := by
  intro txs
  induction txs with
  | nil =>
    intro c _
    exact ⟨c, rfl, by simp, by simp⟩
  | cons tx rest ih =>
    intro c hret
    obtain ⟨r, hr⟩ := hret tx (List.mem_cons_self tx rest)
    obtain ⟨c1, h1, ht1, hp1⟩ := countTx_counts classify isPublicChannel hin c tx r hr
    obtain ⟨c2, h2, ht2, hp2⟩ := ih c1 (fun t ht => hret t (List.mem_cons_of_mem tx ht))
    refine ⟨c2, by simp [scanTransactions, h1, h2], ?_, ?_⟩
    · rw [ht2, ht1, List.countP_cons]
      push_cast
      ring
    · rw [hp2, hp1, List.countP_cons]
      push_cast
      ring

/-- The walk over a window that is fetched in full counts the flagged and the
confirmed transactions of the window. -/
theorem walk_counts (client : Client) (classify : MsgTx → Except Fault (Bool × Int))
    (isPublicChannel : OutPoint → Bool)
    (hin : ∀ tx c, classify tx = .ok (true, c) → tx.TxIn ≠ []) :
    ∀ (n : Nat) (h : Hash) (c : Counters) (txs : List MsgTx),
      windowTransactions client n h = some txs → (∀ tx ∈ txs, ∃ r, classify tx = .ok r) →
      ∃ c1 fetched, walkWindow client classify isPublicChannel n h c = .ok (c1, fetched) ∧
        c1.channel_close_tx_cnt =
          c.channel_close_tx_cnt + (txs.countP (isFlagged classify) : ℚ) ∧
        c1.public_channel_close_tx_cnt =
          c.public_channel_close_tx_cnt +
            (txs.countP (isConfirmed classify isPublicChannel) : ℚ) := by
  intro n
  induction n with
  | zero =>
    intro h c txs hw _
    simp [windowTransactions] at hw
    subst hw
    exact ⟨c, [], rfl, by simp, by simp⟩
  | succ n ih =>
    intro h c txs hw hret
    cases hb : client.GetBlock h with
    | none => simp [windowTransactions, hb] at hw
    | some b =>
      cases hrest : windowTransactions client n b.PrevBlock with
      | none => simp [windowTransactions, hb, hrest] at hw
      | some txs2 =>
        simp [windowTransactions, hb, hrest] at hw
        subst hw
        obtain ⟨c1, h1, ht1, hp1⟩ := scan_counts classify isPublicChannel hin b.Transactions c
          (fun t ht => hret t (List.mem_append_left txs2 ht))
        obtain ⟨c2, fetched, h2, ht2, hp2⟩ := ih b.PrevBlock c1 txs2 hrest
          (fun t ht => hret t (List.mem_append_right b.Transactions ht))
        refine ⟨c2, (h, b) :: fetched, by simp [walkWindow, hb, h1, h2], ?_, ?_⟩
        · rw [ht2, ht1, List.countP_append]
          push_cast
          ring
        · rw [hp2, hp1, List.countP_append]
          push_cast
          ring

/-! ## The invariant of the tallies -/

/-- What one transaction does to the tallies, for any classifier and registry
answer: nothing, one more close, or one more close that is also public. -/
theorem countTx_step (classify : MsgTx → Except Fault (Bool × Int))
    (isPublicChannel : OutPoint → Bool) (c c1 : Counters) (tx : MsgTx)
    (h : countTx classify isPublicChannel c tx = .ok c1) :
    (c1.public_channel_close_tx_cnt = c.public_channel_close_tx_cnt ∧
      (c1.channel_close_tx_cnt = c.channel_close_tx_cnt ∨
        c1.channel_close_tx_cnt = c.channel_close_tx_cnt + 1)) ∨
    (c1.public_channel_close_tx_cnt = c.public_channel_close_tx_cnt + 1 ∧
      c1.channel_close_tx_cnt = c.channel_close_tx_cnt + 1) := by
  unfold countTx at h
  split at h
  · simp at h
  · split at h
    · split at h
      · simp at h
      · split at h
        · simp at h
          subst h
          exact Or.inr ⟨rfl, rfl⟩
        · simp at h
          subst h
          exact Or.inl ⟨rfl, Or.inr rfl⟩
    · simp at h
      subst h
      exact Or.inl ⟨rfl, Or.inl rfl⟩

/-- One transaction keeps `0 ≤ public ≤ total`. -/
theorem countTx_invariant (classify : MsgTx → Except Fault (Bool × Int))
    (isPublicChannel : OutPoint → Bool) (c c1 : Counters) (tx : MsgTx)
    (h : countTx classify isPublicChannel c tx = .ok c1)
    (h0 : 0 ≤ c.public_channel_close_tx_cnt)
    (hle : c.public_channel_close_tx_cnt ≤ c.channel_close_tx_cnt) :
    0 ≤ c1.public_channel_close_tx_cnt ∧
      c1.public_channel_close_tx_cnt ≤ c1.channel_close_tx_cnt := by
  rcases countTx_step classify isPublicChannel c c1 tx h with ⟨hp, ht | ht⟩ | ⟨hp, ht⟩ <;>
    rw [hp, ht] <;> constructor <;> linarith

/-- A scan keeps `0 ≤ public ≤ total`. -/
theorem scan_invariant (classify : MsgTx → Except Fault (Bool × Int))
    (isPublicChannel : OutPoint → Bool) :
    ∀ (txs : List MsgTx) (c c1 : Counters),
      scanTransactions classify isPublicChannel c txs = .ok c1 →
      0 ≤ c.public_channel_close_tx_cnt →
      c.public_channel_close_tx_cnt ≤ c.channel_close_tx_cnt →
      0 ≤ c1.public_channel_close_tx_cnt ∧
        c1.public_channel_close_tx_cnt ≤ c1.channel_close_tx_cnt := by
  intro txs
  induction txs with
  | nil =>
    intro c c1 h h0 hle
    simp [scanTransactions] at h
    subst h
    exact ⟨h0, hle⟩
  | cons tx rest ih =>
    intro c c1 h h0 hle
    unfold scanTransactions at h
    split at h
    · simp at h
    · rename_i c2 hc2
      obtain ⟨h0b, hleb⟩ := countTx_invariant classify isPublicChannel c c2 tx hc2 h0 hle
      exact ih c2 c1 h h0b hleb

/-- A walk keeps `0 ≤ public ≤ total`. -/
theorem walk_invariant (client : Client) (classify : MsgTx → Except Fault (Bool × Int))
    (isPublicChannel : OutPoint → Bool) :
    ∀ (n : Nat) (h : Hash) (c c1 : Counters) (fetched : List (Hash × MsgBlock)),
      walkWindow client classify isPublicChannel n h c = .ok (c1, fetched) →
      0 ≤ c.public_channel_close_tx_cnt →
      c.public_channel_close_tx_cnt ≤ c.channel_close_tx_cnt →
      0 ≤ c1.public_channel_close_tx_cnt ∧
        c1.public_channel_close_tx_cnt ≤ c1.channel_close_tx_cnt := by
  intro n
  induction n with
  | zero =>
    intro h c c1 fetched hw h0 hle
    simp [walkWindow] at hw
    rw [← hw.1]
    exact ⟨h0, hle⟩
  | succ n ih =>
    intro h c c1 fetched hw h0 hle
    unfold walkWindow at hw
    split at hw
    · simp at hw
    · rename_i b hb
      split at hw
      · simp at hw
      · rename_i c2 hc2
        obtain ⟨h0b, hleb⟩ := scan_invariant classify isPublicChannel b.Transactions c c2 hc2 h0 hle
        split at hw
        · simp at hw
        · rename_i c3 fetched3 hw3
          simp at hw
          rw [← hw.1]
          exact ih b.PrevBlock c2 c3 fetched3 hw3 h0b hleb

/-- The tallies at the end of a sampled window satisfy `0 ≤ public ≤ total`. -/
theorem sample_invariant (client : Client) (classify : MsgTx → Except Fault (Bool × Int))
    (isPublicChannel : OutPoint → Bool) (best_height : Int) (raw : Nat) (c : Counters)
    (fetched : List (Hash × MsgBlock))
    (h : sampleWindow client classify isPublicChannel best_height raw = .ok (c, fetched)) :
    0 ≤ c.public_channel_close_tx_cnt ∧
      c.public_channel_close_tx_cnt ≤ c.channel_close_tx_cnt := by
  unfold sampleWindow at h
  split at h
  · simp at h
  · split at h
    · simp at h
    · exact walk_invariant client classify isPublicChannel blocksInMonth _ zeroCounters c fetched h
        (by simp [zeroCounters]) (by simp [zeroCounters])

/-- Pushing the ratio of tallies with `0 ≤ public ≤ total` keeps every sample
non-negative. -/
theorem recordRatio_nonneg (estimates : List ℚ) (c : Counters)
    (hle : c.public_channel_close_tx_cnt ≤ c.channel_close_tx_cnt)
    (hest : ∀ x ∈ estimates, 0 ≤ x) : ∀ x ∈ recordRatio estimates c, 0 ≤ x := by
  intro x hx
  unfold recordRatio at hx
  split at hx
  · rename_i hpos
    rcases List.mem_append.1 hx with hx | hx
    · exact hest x hx
    · simp at hx
      rw [hx]
      exact div_nonneg (by linarith) (le_of_lt hpos)
  · exact hest x hx

/-- A trial keeps every sample non-negative and adds at most one. -/
theorem trial_samples (client : Client) (classify : MsgTx → Except Fault (Bool × Int))
    (isPublicChannel : OutPoint → Bool) (best_height : Int) (estimates estimates1 : List ℚ)
    (raw : Nat)
    (h : trial client classify isPublicChannel best_height estimates raw = .ok estimates1)
    (hest : ∀ x ∈ estimates, 0 ≤ x) :
    (∀ x ∈ estimates1, 0 ≤ x) ∧ estimates1.length ≤ estimates.length + 1 := by
  unfold trial at h
  split at h
  · simp at h
  · rename_i c fetched hs
    simp at h
    subst h
    obtain ⟨_, hle⟩ := sample_invariant client classify isPublicChannel best_height raw c fetched hs
    refine ⟨recordRatio_nonneg estimates c hle hest, ?_⟩
    unfold recordRatio
    split <;> simp

/-- The loop over trials keeps every sample non-negative and adds at most one
sample per trial. -/
theorem runTrials_samples (client : Client) (classify : MsgTx → Except Fault (Bool × Int))
    (isPublicChannel : OutPoint → Bool) (best_height : Int) (rand : Nat → Nat) :
    ∀ (n tr : Nat) (estimates estimates1 : List ℚ),
      runTrials client classify isPublicChannel best_height rand n tr estimates = .ok estimates1 →
      (∀ x ∈ estimates, 0 ≤ x) →
      (∀ x ∈ estimates1, 0 ≤ x) ∧ estimates1.length ≤ estimates.length + n := by
  intro n
  induction n with
  | zero =>
    intro tr estimates estimates1 h hest
    simp [runTrials] at h
    subst h
    exact ⟨hest, by simp⟩
  | succ n ih =>
    intro tr estimates estimates1 h hest
    unfold runTrials at h
    split at h
    · simp at h
    · rename_i est2 ht
      obtain ⟨hn2, hl2⟩ := trial_samples client classify isPublicChannel best_height estimates
        est2 (rand tr) ht hest
      obtain ⟨hn3, hl3⟩ := ih (tr + 1) est2 estimates1 h hn2
      exact ⟨hn3, by omega⟩

/-! ## The sample node -/

/-- One step of reading a window off the ledger. -/
theorem windowTransactions_succ (client : Client) (n : Nat) (h : Hash) (b : MsgBlock)
    (txs : List MsgTx) (hb : client.GetBlock h = some b)
    (hrec : windowTransactions client n b.PrevBlock = some txs) :
    windowTransactions client (n + 1) h = some (b.Transactions ++ txs) := by
  simp [windowTransactions, hb, hrec]

/-- The block `sampleNode` serves for a hash other than 560000. -/
theorem sampleNode_empty_block (h : Nat) (hne : h ≠ 560000) :
    sampleNode.GetBlock h = some { PrevBlock := h - 1, Transactions := [] } := by
  simp [sampleNode, hne]

/-- On `sampleNode`, a window that does not reach block 560000 is empty. -/
theorem sampleNode_quiet_window :
    ∀ (n h : Nat), h < 560000 ∨ 560000 + n ≤ h →
      windowTransactions sampleNode n h = some [] := by
  intro n
  induction n with
  | zero =>
    intro h _
    rfl
  | succ n ih =>
    intro h hh
    have hb := sampleNode_empty_block h (by omega)
    have hrec : windowTransactions sampleNode n (h - 1) = some [] := ih (h - 1) (by omega)
    simp only [windowTransactions, hb, hrec]
    rfl

/-- On `sampleNode`, the window starting at block 560000 holds the two closes. -/
theorem sampleNode_busy_window :
    windowTransactions sampleNode blocksInMonth 560000 = some [closeTx, privateTx] := by
  have hrec : windowTransactions sampleNode 4319 (560000 - 1) = some [] :=
    sampleNode_quiet_window 4319 (560000 - 1) (Or.inl (by omega))
  have hb : sampleNode.GetBlock 560000 =
      some { PrevBlock := 560000 - 1, Transactions := [closeTx, privateTx] } := rfl
  exact windowTransactions_succ sampleNode 4319 560000
    { PrevBlock := 560000 - 1, Transactions := [closeTx, privateTx] } [] hb hrec

/-- The classifier of `main` only flags transactions that have an input. -/
theorem sampleClassify_input (tx : MsgTx) (c : Int) (h : sampleClassify tx = .ok (true, c)) :
    tx.TxIn ≠ [] :=
  flagged_has_input multisigScript sampleNode tx c h

/-- With raw draw `0` the trial on `sampleNode` starts at block 560000: its
window holds two flagged transactions, one of them known to the registry. -/
theorem sampleNode_window_busy :
    WindowHolds sampleNode sampleClassify knownRegistry 600000 0 2 1 := by
  refine ⟨0, 560000, [closeTx, privateTx], rfl, rfl, sampleNode_busy_window, ?_, rfl, rfl⟩
  intro tx htx
  simp at htx
  rcases htx with rfl | rfl
  · exact ⟨(true, 1000), rfl⟩
  · exact ⟨(true, 2000), rfl⟩

/-- With raw draw `5000` the trial on `sampleNode` starts at block 565000: its
window holds no transaction. -/
theorem sampleNode_window_quiet :
    WindowHolds sampleNode sampleClassify knownRegistry 600000 5000 0 0 := by
  refine ⟨5000, 565000, [], rfl, rfl, ?_, ?_, rfl, rfl⟩
  · exact sampleNode_quiet_window blocksInMonth 565000 (Or.inr (by simp [blocksInMonth]))
  · intro tx htx
    simp at htx

/-- The classifier returns on every transaction of every block of
`sampleNode`. -/
theorem sampleNode_classifier_returns (h : Hash) (b : MsgBlock)
    (hb : sampleNode.GetBlock h = some b) (tx : MsgTx) (htx : tx ∈ b.Transactions) :
    ∃ r, isLikelyChannelCloseTx multisigScript tx sampleNode = .ok r := by
  simp [sampleNode] at hb
  rw [← hb] at htx
  by_cases h5 : h = 560000
  · simp [h5] at htx
    rcases htx with rfl | rfl
    · exact ⟨(true, 1000), rfl⟩
    · exact ⟨(true, 2000), rfl⟩
  · simp [h5] at htx

/-- A window that is fetched in full gives a completed sample with the counts
of the window as tallies. -/
theorem sample_of_window (client : Client) (classify : MsgTx → Except Fault (Bool × Int))
    (isPublicChannel : OutPoint → Bool)
    (hin : ∀ tx c, classify tx = .ok (true, c) → tx.TxIn ≠ [])
    (best_height : Int) (raw flagged confirmed : Nat)
    (hw : WindowHolds client classify isPublicChannel best_height raw flagged confirmed) :
    ∃ c fetched,
      sampleWindow client classify isPublicChannel best_height raw = .ok (c, fetched) ∧
      c.channel_close_tx_cnt = (flagged : ℚ) ∧
      c.public_channel_close_tx_cnt = (confirmed : ℚ) := by
  obtain ⟨k, h, txs, hk, hh, hwin, hret, hf, hc⟩ := hw
  obtain ⟨c, fetched, hwalk, ht, hp⟩ :=
    walk_counts client classify isPublicChannel hin blocksInMonth h zeroCounters txs hwin hret
  refine ⟨c, fetched, ?_, ?_, ?_⟩
  · simp [sampleWindow, hk, hh, hwalk]
  · rw [ht, hf]
    simp [zeroCounters]
  · rw [hp, hc]
    simp [zeroCounters]

/-! ## The end of a trial -/

/-- Claim C5: a trial whose window walk completes with tallies `c` appends a
ratio sample exactly when `public_channel_close_tx_cnt > 0`; the sample is
`(total - public) / public`; with no public close the list of samples is left
as it was. -/
theorem ratio_recorded_iff_public (client : Client)
    (classify : MsgTx → Except Fault (Bool × Int)) (isPublicChannel : OutPoint → Bool)
    (best_height : Int) (estimates : List ℚ) (raw : Nat) (c : Counters)
    (fetched : List (Hash × MsgBlock))
    (hs : sampleWindow client classify isPublicChannel best_height raw = .ok (c, fetched)) :
    ∃ estimates1,
      trial client classify isPublicChannel best_height estimates raw = .ok estimates1 ∧
      (estimates1.length = estimates.length + 1 ↔ 0 < c.public_channel_close_tx_cnt) ∧
      (0 < c.public_channel_close_tx_cnt →
        estimates1 = estimates ++
          [(c.channel_close_tx_cnt - c.public_channel_close_tx_cnt) /
            c.public_channel_close_tx_cnt]) ∧
      (¬ 0 < c.public_channel_close_tx_cnt → estimates1 = estimates) ∧
      (c.public_channel_close_tx_cnt = 0 → estimates1 = estimates) := by
  refine ⟨recordRatio estimates c, by simp [trial, hs], ?_, ?_, ?_, ?_⟩
  · unfold recordRatio
    split <;> simp [*]
  · intro hpos
    simp [recordRatio, hpos]
  · intro hnot
    have h2 : ¬ c.public_channel_close_tx_cnt > 0 := hnot
    simp [recordRatio, h2]
  · intro hz
    simp [recordRatio, hz]

/-- The witness of claim C5: the trial on `sampleNode` with raw draw `0` counts
two closes, one of them public, and appends the sample `1`. -/
theorem ratio_recorded_iff_public_witness :
    ∃ c fetched estimates1,
      sampleWindow sampleNode sampleClassify knownRegistry 600000 0 = .ok (c, fetched) ∧
      trial sampleNode sampleClassify knownRegistry 600000 [] 0 = .ok estimates1 ∧
      estimates1 = [1] := by
  obtain ⟨c, fetched, hs, ht, hp⟩ := sample_of_window sampleNode sampleClassify knownRegistry
    sampleClassify_input 600000 0 2 1 sampleNode_window_busy
  obtain ⟨estimates1, htrial, _, hpush, _, _⟩ :=
    ratio_recorded_iff_public sampleNode sampleClassify knownRegistry 600000 [] 0 c fetched hs
  refine ⟨c, fetched, estimates1, hs, htrial, ?_⟩
  rw [hpush (by rw [hp]; norm_num), ht, hp]
  norm_num

/-! ## The invariant, at every point of the walk -/

/-- Claim C6: for every classifier and registry, each transaction either leaves
the public tally alone or increments it together with the total; so
`public ≤ total` holds after any sequence of transactions from the start of a
trial, and after any number of blocks of a walk followed by any further
transactions; and a trial only ever adds a sample that is `≥ 0`. -/
theorem public_never_exceeds_total (client : Client)
    (classify : MsgTx → Except Fault (Bool × Int)) (isPublicChannel : OutPoint → Bool) :
    (∀ c tx c1, countTx classify isPublicChannel c tx = .ok c1 →
      (c1.public_channel_close_tx_cnt = c.public_channel_close_tx_cnt ∧
        (c1.channel_close_tx_cnt = c.channel_close_tx_cnt ∨
          c1.channel_close_tx_cnt = c.channel_close_tx_cnt + 1)) ∨
      (c1.public_channel_close_tx_cnt = c.public_channel_close_tx_cnt + 1 ∧
        c1.channel_close_tx_cnt = c.channel_close_tx_cnt + 1)) ∧
    (∀ txs c1, scanTransactions classify isPublicChannel zeroCounters txs = .ok c1 →
      c1.public_channel_close_tx_cnt ≤ c1.channel_close_tx_cnt) ∧
    (∀ n h c1 fetched txs c2,
      walkWindow client classify isPublicChannel n h zeroCounters = .ok (c1, fetched) →
      scanTransactions classify isPublicChannel c1 txs = .ok c2 →
      c2.public_channel_close_tx_cnt ≤ c2.channel_close_tx_cnt) ∧
    (∀ best_height raw estimates estimates1,
      trial client classify isPublicChannel best_height estimates raw = .ok estimates1 →
      (∀ x ∈ estimates, 0 ≤ x) → ∀ x ∈ estimates1, 0 ≤ x) := by
  refine ⟨?_, ?_, ?_, ?_⟩
  · intro c tx c1 h
    exact countTx_step classify isPublicChannel c c1 tx h
  · intro txs c1 h
    exact (scan_invariant classify isPublicChannel txs zeroCounters c1 h
      (by simp [zeroCounters]) (by simp [zeroCounters])).2
  · intro n h c1 fetched txs c2 hw hscan
    obtain ⟨h0, hle⟩ := walk_invariant client classify isPublicChannel n h zeroCounters c1
      fetched hw (by simp [zeroCounters]) (by simp [zeroCounters])
    exact (scan_invariant classify isPublicChannel txs c1 c2 hscan h0 hle).2
  · intro best_height raw estimates estimates1 h hest
    exact (trial_samples client classify isPublicChannel best_height estimates estimates1 raw
      h hest).1

/-- The witness of claim C6: after the two closes of block 560000, of which the
registry knows one, the tallies are `2` and `1`. -/
theorem public_never_exceeds_total_witness :
    ∃ c1, scanTransactions sampleClassify knownRegistry zeroCounters [closeTx, privateTx] =
        .ok c1 ∧
      c1.channel_close_tx_cnt = 2 ∧ c1.public_channel_close_tx_cnt = 1 ∧
      c1.public_channel_close_tx_cnt ≤ c1.channel_close_tx_cnt := by
  obtain ⟨c1, h1, ht, hp⟩ := scan_counts sampleClassify knownRegistry sampleClassify_input
    [closeTx, privateTx] zeroCounters (by
      intro tx htx
      simp at htx
      rcases htx with rfl | rfl
      · exact ⟨(true, 1000), rfl⟩
      · exact ⟨(true, 2000), rfl⟩)
  have hf : List.countP (isFlagged sampleClassify) [closeTx, privateTx] = 2 := rfl
  have hc : List.countP (isConfirmed sampleClassify knownRegistry) [closeTx, privateTx] = 1 :=
    rfl
  refine ⟨c1, h1, ?_, ?_,
    (public_never_exceeds_total sampleNode sampleClassify knownRegistry).2.1 _ c1 h1⟩
  · rw [ht, hf]
    simp [zeroCounters]
  · rw [hp, hc]
    simp [zeroCounters]

/-! ## The shape of a window walk -/

/-- A completed walk of `n` steps from `h` fetched `n` blocks, the first one for
the hash `h`, each one the answer of the node for its hash, and each one after
the first for the predecessor reference of the one before it. -/
theorem walk_shape (client : Client) (classify : MsgTx → Except Fault (Bool × Int))
    (isPublicChannel : OutPoint → Bool) :
    ∀ (n : Nat) (h : Hash) (c c1 : Counters) (fetched : List (Hash × MsgBlock)),
      walkWindow client classify isPublicChannel n h c = .ok (c1, fetched) →
      fetched.length = n ∧
      (∀ p, fetched.head? = some p → p.1 = h) ∧
      (∀ p ∈ fetched, client.GetBlock p.1 = some p.2) ∧
      (∀ i p q, fetched.get? i = some p → fetched.get? (i + 1) = some q →
        q.1 = p.2.PrevBlock) := by
  intro n
  induction n with
  | zero =>
    intro h c c1 fetched hw
    simp [walkWindow] at hw
    rw [hw.2]
    simp
  | succ n ih =>
    intro h c c1 fetched hw
    unfold walkWindow at hw
    split at hw
    · simp at hw
    · rename_i b hb
      split at hw
      · simp at hw
      · rename_i c2 hc2
        split at hw
        · simp at hw
        · rename_i c3 fetched3 hw3
          simp at hw
          obtain ⟨hlen, hhead, hmem, hlink⟩ := ih b.PrevBlock c2 c3 fetched3 hw3
          rw [← hw.2]
          refine ⟨by simp [hlen], ?_, ?_, ?_⟩
          · intro p hp
            simp at hp
            rw [← hp]
          · intro p hp
            rcases List.mem_cons.1 hp with rfl | hp
            · exact hb
            · exact hmem p hp
          · intro i p q hp hq
            cases i with
            | zero =>
              simp at hp hq
              rw [← hp]
              apply hhead q
              cases fetched3 with
              | nil => simp at hq
              | cons x rest =>
                simp at hq
                simp [hq]
            | succ i =>
              simp at hp hq
              exact hlink i p q (by simpa using hp) (by simpa using hq)

/-- A walk that meets a hash the node does not serve ends in a fault; there is
no shorter window. -/
theorem walk_fails (client : Client) (classify : MsgTx → Except Fault (Bool × Int))
    (isPublicChannel : OutPoint → Bool) :
    ∀ (n : Nat) (h : Hash) (c : Counters) (i : Nat) (hi : Hash), i < n →
      nthHash client i h = some hi → client.GetBlock hi = none →
      ∃ f, walkWindow client classify isPublicChannel n h c = .error f := by
  intro n
  induction n with
  | zero =>
    intro h c i hi hlt
    omega
  | succ n ih =>
    intro h c i hi hlt hnth hnone
    cases i with
    | zero =>
      simp [nthHash] at hnth
      subst hnth
      exact ⟨Fault.fatal, by simp [walkWindow, hnone]⟩
    | succ i =>
      cases hb : client.GetBlock h with
      | none => exact ⟨Fault.fatal, by simp [walkWindow, hb]⟩
      | some b =>
        simp [nthHash, hb] at hnth
        cases hscan : scanTransactions classify isPublicChannel c b.Transactions with
        | error f => exact ⟨f, by simp [walkWindow, hb, hscan]⟩
        | ok c2 =>
          obtain ⟨f, hf⟩ := ih b.PrevBlock c2 i hi (by omega) hnth hnone
          exact ⟨f, by simp [walkWindow, hb, hscan, hf]⟩

/-- Claim C8: a trial whose window walk completes fetched exactly 4320 blocks;
the first is the block for the hash of the drawn height; each fetched block is
the node's answer for its hash, and each one after the first was asked for by
the predecessor reference of the block fetched just before it.  A hash the node
does not serve, at any step of the 4320, ends the walk in a fault, and so does a
height the node does not resolve. -/
theorem window_walk_fetches_chain (client : Client)
    (classify : MsgTx → Except Fault (Bool × Int)) (isPublicChannel : OutPoint → Bool)
    (best_height : Int) (raw : Nat) :
    (∀ c fetched,
      sampleWindow client classify isPublicChannel best_height raw = .ok (c, fetched) →
      ∃ k h0 b0,
        Intn raw (best_height - startBlock) = .ok k ∧
        client.GetBlockHash (k + startBlock) = some h0 ∧
        fetched.length = 4320 ∧
        fetched.head? = some (h0, b0) ∧
        (∀ p ∈ fetched, client.GetBlock p.1 = some p.2) ∧
        (∀ i p q, fetched.get? i = some p → fetched.get? (i + 1) = some q →
          q.1 = p.2.PrevBlock)) ∧
    (∀ k h0 i hi,
      Intn raw (best_height - startBlock) = .ok k →
      client.GetBlockHash (k + startBlock) = some h0 →
      i < 4320 → nthHash client i h0 = some hi → client.GetBlock hi = none →
      ∃ f, sampleWindow client classify isPublicChannel best_height raw = .error f) ∧
    (∀ k,
      Intn raw (best_height - startBlock) = .ok k →
      client.GetBlockHash (k + startBlock) = none →
      sampleWindow client classify isPublicChannel best_height raw = .error Fault.fatal) := by
  refine ⟨?_, ?_, ?_⟩
  · intro c fetched hs
    unfold sampleWindow at hs
    split at hs
    · simp at hs
    · rename_i k hk
      split at hs
      · simp at hs
      · rename_i h0 hh
        obtain ⟨hlen, hhead, hmem, hlink⟩ := walk_shape client classify isPublicChannel
          blocksInMonth h0 zeroCounters c fetched hs
        cases hf : fetched with
        | nil =>
          rw [hf] at hlen
          simp [blocksInMonth] at hlen
        | cons p rest =>
          have hp : p.1 = h0 := hhead p (by simp [hf])
          refine ⟨k, h0, p.2, hk, hh, ?_, ?_, ?_, ?_⟩
          · rw [← hf, hlen]
            rfl
          · simp [← hp]
          · rw [← hf]
            exact hmem
          · rw [← hf]
            exact hlink
  · intro k h0 i hi hk hh hlt hnth hnone
    obtain ⟨f, hf⟩ := walk_fails client classify isPublicChannel blocksInMonth h0 zeroCounters
      i hi hlt hnth hnone
    exact ⟨f, by simp [sampleWindow, hk, hh, hf]⟩
  · intro k hk hh
    simp [sampleWindow, hk, hh]

/-- The witness of claim C8: the trial on `sampleNode` with raw draw `0`
completes; its 4320 fetched blocks start with block 560000. -/
theorem window_walk_fetches_chain_witness :
    ∃ c fetched b0,
      sampleWindow sampleNode sampleClassify knownRegistry 600000 0 = .ok (c, fetched) ∧
      fetched.length = 4320 ∧ fetched.head? = some (560000, b0) := by
  obtain ⟨c, fetched, hs, _, _⟩ := sample_of_window sampleNode sampleClassify knownRegistry
    sampleClassify_input 600000 0 2 1 sampleNode_window_busy
  obtain ⟨k, h0, b0, hk, hh, hlen, hhead, _, _⟩ :=
    (window_walk_fetches_chain sampleNode sampleClassify knownRegistry 600000 0).1 c fetched hs
  have hk0 : k = 0 := by
    have h2 : Intn 0 (600000 - startBlock) = .ok 0 := rfl
    rw [h2] at hk
    simpa using hk.symm
  subst hk0
  have hh0 : h0 = 560000 := by
    have h2 : sampleNode.GetBlockHash (0 + startBlock) = some 560000 := rfl
    rw [h2] at hh
    simpa using hh.symm
  subst hh0
  exact ⟨c, fetched, b0, hs, hlen, hhead⟩

/-! ## The loop over trials -/

/-- The pushed ratio only depends on the two close tallies. -/
theorem recordRatio_congr (estimates : List ℚ) (c d : Counters)
    (ht : c.channel_close_tx_cnt = d.channel_close_tx_cnt)
    (hp : c.public_channel_close_tx_cnt = d.public_channel_close_tx_cnt) :
    recordRatio estimates c = recordRatio estimates d := by
  simp [recordRatio, ht, hp]

/-- A trial on a window that is fetched in full records the ratio of the counts
of the window. -/
theorem trial_of_window (client : Client) (classify : MsgTx → Except Fault (Bool × Int))
    (isPublicChannel : OutPoint → Bool)
    (hin : ∀ tx c, classify tx = .ok (true, c) → tx.TxIn ≠ [])
    (best_height : Int) (estimates : List ℚ) (raw flagged confirmed : Nat)
    (hw : WindowHolds client classify isPublicChannel best_height raw flagged confirmed) :
    trial client classify isPublicChannel best_height estimates raw =
      .ok (recordRatio estimates
        { channel_close_tx_cnt := (flagged : ℚ),
          public_channel_close_tx_cnt := (confirmed : ℚ),
          public_channel_cap := 0 }) := by
  obtain ⟨c, fetched, hs, ht, hp⟩ := sample_of_window client classify isPublicChannel hin
    best_height raw flagged confirmed hw
  simp only [trial, hs]
  rw [recordRatio_congr estimates c
    { channel_close_tx_cnt := (flagged : ℚ),
      public_channel_close_tx_cnt := (confirmed : ℚ),
      public_channel_cap := 0 } ht hp]

/-- The loop over trials on windows that are all fetched in full. -/
theorem runTrials_of_windows (client : Client) (classify : MsgTx → Except Fault (Bool × Int))
    (isPublicChannel : OutPoint → Bool)
    (hin : ∀ tx c, classify tx = .ok (true, c) → tx.TxIn ≠ [])
    (best_height : Int) (rand : Nat → Nat) (counts : Nat → Nat × Nat) :
    ∀ (n tr : Nat) (estimates : List ℚ),
      (∀ i, tr ≤ i → i < tr + n →
        WindowHolds client classify isPublicChannel best_height (rand i)
          (counts i).1 (counts i).2) →
      runTrials client classify isPublicChannel best_height rand n tr estimates =
        .ok (expectedSamples counts n tr estimates) := by
  intro n
  induction n with
  | zero =>
    intro tr estimates _
    rfl
  | succ n ih =>
    intro tr estimates hw
    have ht := trial_of_window client classify isPublicChannel hin best_height estimates
      (rand tr) (counts tr).1 (counts tr).2 (hw tr (le_refl tr) (by omega))
    simp only [runTrials, ht, expectedSamples]
    exact ih (tr + 1) _ (fun i h1 h2 => hw i (by omega) (by omega))

/-! ## Aggregation -/

/-- The sum loop computes the sum of the list. -/
theorem sumRatios_eq_sum (estimates : List ℚ) : sumRatios estimates = estimates.sum := by
  have hgen : ∀ (l : List ℚ) (a : ℚ), List.foldl (fun acc e => acc + e) a l = a + l.sum := by
    intro l
    induction l with
    | nil =>
      intro a
      simp
    | cons x rest ih =>
      intro a
      simp [ih]
      ring
  simp [sumRatios, hgen]

/-- Converting a whole number gives it back. -/
theorem truncate_intCast (k : Int) : truncate (k : ℚ) = k := by
  unfold truncate
  split <;> simp

/-- What a completed run reports: the samples of the loop over trials,
summarised. -/
theorem report_of_run (T : Nat) (K : Int) (client : Client) (txscript : TxScript)
    (isPublicChannel : OutPoint → Bool) (rand : Nat → Nat) (report : Report)
    (hrun : mainWith T K client txscript isPublicChannel rand = .ok report) :
    ∃ best_height estimates,
      client.GetBlockCount = some best_height ∧
      runTrials client (fun tx => isLikelyChannelCloseTx txscript tx client) isPublicChannel
        best_height rand T 0 [] = .ok estimates ∧
      report = summarize T K estimates := by
  unfold mainWith at hrun
  split at hrun
  · simp at hrun
  · rename_i best_height hb
    split at hrun
    · simp at hrun
    · rename_i estimates hr
      simp at hrun
      exact ⟨best_height, estimates, hb, hr, hrun.symm⟩

/-! ## The float64 rounding -/

/-- The rounded integer is the floor or the one above it. -/
theorem roundHalfEven_bounds (x : ℚ) :
    ⌊x⌋ ≤ roundHalfEven x ∧ roundHalfEven x ≤ ⌊x⌋ + 1 := by
  unfold roundHalfEven
  split_ifs <;> constructor <;> omega

/-- A whole number rounds to itself. -/
theorem roundHalfEven_intCast (n : Int) : roundHalfEven (n : ℚ) = n := by
  unfold roundHalfEven
  simp

/-- Rounding to the nearest integer keeps the order. -/
theorem roundHalfEven_mono (x y : ℚ) (h : x ≤ y) : roundHalfEven x ≤ roundHalfEven y := by
  have hfl : ⌊x⌋ ≤ ⌊y⌋ := Int.floor_le_floor h
  rcases lt_or_eq_of_le hfl with hlt | heq
  · have h1 := (roundHalfEven_bounds x).2
    have h2 := (roundHalfEven_bounds y).1
    omega
  · unfold roundHalfEven
    rw [← heq]
    have hxy : x - (⌊x⌋ : ℚ) ≤ y - (⌊x⌋ : ℚ) := by linarith
    split_ifs <;> first | omega | (exfalso; linarith)

/-- Rounding to a grid keeps the order. -/
theorem roundToGrid_mono (g : Int) (x y : ℚ) (h : x ≤ y) : roundToGrid g x ≤ roundToGrid g y := by
  unfold roundToGrid
  have hpos : (0 : ℚ) < 2 ^ g := by positivity
  have hdiv : x / 2 ^ g ≤ y / 2 ^ g := div_le_div_of_nonneg_right h (le_of_lt hpos)
  have hr : (roundHalfEven (x / 2 ^ g) : ℚ) ≤ (roundHalfEven (y / 2 ^ g) : ℚ) := by
    exact_mod_cast roundHalfEven_mono _ _ hdiv
  exact mul_le_mul_of_nonneg_right hr (le_of_lt hpos)

/-- A power of two at or above the spacing lies on the grid. -/
theorem roundToGrid_zpow (g E : Int) (h : g ≤ E) : roundToGrid g ((2 : ℚ) ^ E) = 2 ^ E := by
  unfold roundToGrid
  obtain ⟨n, hn⟩ := Int.eq_ofNat_of_zero_le (show 0 ≤ E - g by omega)
  have hq : (2 : ℚ) ^ E / 2 ^ g = (((2 : Int) ^ n : Int) : ℚ) := by
    rw [← zpow_sub₀ (by norm_num : (2 : ℚ) ≠ 0), hn]
    simp
  rw [hq, roundHalfEven_intCast, ← hq]
  field_simp

/-- The spacing does not shrink as the value grows. -/
theorem gridExponent_mono (x y : ℚ) (hx : 0 < x) (h : x ≤ y) :
    gridExponent x ≤ gridExponent y := by
  unfold gridExponent
  rw [abs_of_pos hx, abs_of_pos (lt_of_lt_of_le hx h)]
  have := Int.log_mono_right (b := 2) hx h
  exact max_le_max (by omega) (le_refl _)

/-- The float64 rounding keeps the order of positive values. -/
theorem roundFloat64_mono_pos (x y : ℚ) (hx : 0 < x) (h : x ≤ y) :
    roundFloat64 x ≤ roundFloat64 y := by
  have hy : 0 < y := lt_of_lt_of_le hx h
  have hg := gridExponent_mono x y hx h
  unfold roundFloat64
  rcases lt_or_eq_of_le hg with hlt | heq
  · have hgx : -1074 ≤ gridExponent x := le_max_right _ _
    have hgy : gridExponent y = Int.log 2 y - 52 := by
      have h2 : gridExponent y = max (Int.log 2 y - 52) (-1074) := by
        unfold gridExponent
        rw [abs_of_pos hy]
      rw [h2] at hlt ⊢
      rcases le_total (Int.log 2 y - 52) (-1074) with hc | hc
      · rw [max_eq_right hc] at hlt
        omega
      · exact max_eq_left hc
    have hlog : Int.log 2 x < Int.log 2 y := by
      by_contra hcon
      have hle : Int.log 2 y ≤ Int.log 2 x := by omega
      have hxe : gridExponent x = max (Int.log 2 x - 52) (-1074) := by
        unfold gridExponent
        rw [abs_of_pos hx]
      have : gridExponent y ≤ gridExponent x := by
        rw [hgy, hxe]
        exact le_trans (by omega) (le_max_left _ _)
      omega
    have hxlt : x < (2 : ℚ) ^ Int.log 2 y := by
      have := (Int.lt_zpow_iff_log_lt (R := ℚ) (b := 2) (by norm_num) hx).2 hlog
      simpa using this
    have hyge : (2 : ℚ) ^ Int.log 2 y ≤ y := by
      have := Int.zpow_log_le_self (R := ℚ) (b := 2) (by norm_num) hy
      simpa using this
    calc roundToGrid (gridExponent x) x
        ≤ roundToGrid (gridExponent x) ((2 : ℚ) ^ Int.log 2 y) :=
          roundToGrid_mono _ _ _ (le_of_lt hxlt)
      _ = (2 : ℚ) ^ Int.log 2 y := roundToGrid_zpow _ _ (by omega)
      _ = roundToGrid (gridExponent y) ((2 : ℚ) ^ Int.log 2 y) :=
          (roundToGrid_zpow _ _ (by omega)).symm
      _ ≤ roundToGrid (gridExponent y) y := roundToGrid_mono _ _ _ hyge
  · rw [heq]
    exact roundToGrid_mono _ _ _ h

/-- Zero is a float64 value. -/
theorem roundFloat64_zero : roundFloat64 0 = 0 := by
  simp [roundFloat64, roundToGrid, roundHalfEven]

/-- The float64 value of a non-negative result is non-negative. -/
theorem roundFloat64_nonneg (x : ℚ) (hx : 0 ≤ x) : 0 ≤ roundFloat64 x := by
  unfold roundFloat64 roundToGrid
  have hpos : (0 : ℚ) < 2 ^ gridExponent x := by positivity
  have hfl : 0 ≤ ⌊x / 2 ^ gridExponent x⌋ := Int.floor_nonneg.2 (div_nonneg hx (le_of_lt hpos))
  have hb := (roundHalfEven_bounds (x / 2 ^ gridExponent x)).1
  have : (0 : ℚ) ≤ (roundHalfEven (x / 2 ^ gridExponent x) : ℚ) := by
    exact_mod_cast le_trans hfl hb
  exact mul_nonneg this (le_of_lt hpos)

/-- The float64 rounding keeps the order of non-negative values. -/
theorem roundFloat64_mono (x y : ℚ) (hx : 0 ≤ x) (h : x ≤ y) :
    roundFloat64 x ≤ roundFloat64 y := by
  rcases lt_or_eq_of_le hx with hpos | h0
  · exact roundFloat64_mono_pos x y hpos h
  · rw [← h0, roundFloat64_zero]
    exact roundFloat64_nonneg y (le_trans hx h)

/-- A value less than one half away from a whole number rounds to it. -/
theorem roundHalfEven_near (x : ℚ) (m : Int) (h1 : (m : ℚ) - 1 / 2 < x) (h2 : x < m + 1 / 2) :
    roundHalfEven x = m := by
  unfold roundHalfEven
  rcases le_or_lt (m : ℚ) x with hge | hlt
  · have hfl : ⌊x⌋ = m := Int.floor_eq_iff.2 ⟨hge, by linarith⟩
    rw [hfl]
    rw [if_pos (by linarith)]
  · have hfl : ⌊x⌋ = m - 1 := Int.floor_eq_iff.2 ⟨by push_cast; linarith, by push_cast; linarith⟩
    rw [hfl]
    rw [if_neg (by push_cast; linarith), if_pos (by push_cast; linarith)]
    omega

/-- A tie above an even whole number rounds down to it. -/
theorem roundHalfEven_tie_even (x : ℚ) (m : Int) (h : x = m + 1 / 2) (he : m % 2 = 0) :
    roundHalfEven x = m := by
  unfold roundHalfEven
  have hfl : ⌊x⌋ = m := Int.floor_eq_iff.2 ⟨by linarith, by linarith⟩
  rw [hfl, if_neg (by linarith), if_neg (by linarith), if_pos he]

/-- The float64 value of a result in the binade of exponent `E`. -/
theorem roundFloat64_eval (x : ℚ) (E m : Int) (hlow : (2 : ℚ) ^ E ≤ x)
    (hhigh : x < (2 : ℚ) ^ (E + 1)) (hE : -1022 ≤ E)
    (hm : roundHalfEven (x / (2 : ℚ) ^ (E - 52)) = m) :
    roundFloat64 x = (m : ℚ) * (2 : ℚ) ^ (E - 52) := by
  have hx : 0 < x := lt_of_lt_of_le (by positivity) hlow
  have hlog : Int.log 2 x = E := by
    have h1 : Int.log 2 x < E + 1 :=
      (Int.lt_zpow_iff_log_lt (R := ℚ) (b := 2) (by norm_num) hx).1 (by simpa using hhigh)
    have h2 : E ≤ Int.log 2 x :=
      (Int.zpow_le_iff_le_log (R := ℚ) (b := 2) (by norm_num) hx).1 (by simpa using hlow)
    omega
  have hg : gridExponent x = E - 52 := by
    unfold gridExponent
    rw [abs_of_pos hx, hlog]
    exact max_eq_left (by omega)
  unfold roundFloat64 roundToGrid
  rw [hg, hm]

/-- The float64 value of a result, given its binade and its rounded mantissa. -/
theorem round_step (x y : ℚ) (E m : Int) (hlow : (2 : ℚ) ^ E ≤ x)
    (hhigh : x < (2 : ℚ) ^ (E + 1)) (hE : -1022 ≤ E)
    (hy : y = (m : ℚ) * (2 : ℚ) ^ (E - 52))
    (hm : roundHalfEven (x / (2 : ℚ) ^ (E - 52)) = m) : roundFloat64 x = y := by
  rw [roundFloat64_eval x E m hlow hhigh hE hm, hy]

/-- The float64 value of `7 / 3`. -/
theorem round_seven_thirds : roundFloat64 (7 / 3) = thirdSample :=
  round_step _ _ 1 5254199565265579 (by norm_num) (by norm_num) (by norm_num)
    (by norm_num [thirdSample]) (roundHalfEven_near _ _ (by norm_num) (by norm_num))

/-- Three samples of `7 / 3` add up to exactly `7` in float64: the last addition is a tie. -/
theorem sum_three_thirds : sumRatiosFloat64 [thirdSample, thirdSample, thirdSample] = 7 := by
  have h1 : roundFloat64 (0 + thirdSample) = thirdSample :=
    round_step _ _ 1 5254199565265579 (by norm_num [thirdSample]) (by norm_num [thirdSample])
      (by norm_num) (by norm_num [thirdSample])
      (roundHalfEven_near _ _ (by norm_num [thirdSample]) (by norm_num [thirdSample]))
  have h2 : roundFloat64 (thirdSample + thirdSample) = 5254199565265579 / 1125899906842624 :=
    round_step _ _ 2 5254199565265579 (by norm_num [thirdSample]) (by norm_num [thirdSample])
      (by norm_num) (by norm_num)
      (roundHalfEven_near _ _ (by norm_num [thirdSample]) (by norm_num [thirdSample]))
  have h3 : roundFloat64 (5254199565265579 / 1125899906842624 + thirdSample) = 7 :=
    round_step _ _ 2 7881299347898368 (by norm_num [thirdSample]) (by norm_num [thirdSample])
      (by norm_num) (by norm_num)
      (roundHalfEven_tie_even _ _ (by norm_num [thirdSample]) (by decide))
  simp only [sumRatiosFloat64, List.foldl, h1, h2, h3]

/-- The trial count `10` is a float64 value. -/
theorem round_ten : roundFloat64 ((10 : Nat) : ℚ) = 10 :=
  round_step _ _ 3 5629499534213120 (by norm_num) (by norm_num) (by norm_num) (by norm_num)
    (roundHalfEven_near _ _ (by norm_num) (by norm_num))

/-- The number `3` is a float64 value. -/
theorem round_three : roundFloat64 ((3 : Nat) : ℚ) = 3 :=
  round_step _ _ 1 6755399441055744 (by norm_num) (by norm_num) (by norm_num) (by norm_num)
    (roundHalfEven_near _ _ (by norm_num) (by norm_num))

/-- The float64 average of three samples of `7 / 3` over ten trials. -/
theorem average_three_thirds :
    averageRatioFloat64 10 [thirdSample, thirdSample, thirdSample] =
      3152519739159347 / 4503599627370496 := by
  unfold averageRatioFloat64
  rw [sum_three_thirds, round_ten]
  exact round_step _ _ (-1) 6305039478318694 (by norm_num) (by norm_num) (by norm_num)
    (by norm_num) (roundHalfEven_near _ _ (by norm_num) (by norm_num))

/-- The float64 mean of three samples of `7 / 3`. -/
theorem mean_three_thirds :
    meanFloat64 [thirdSample, thirdSample, thirdSample] = thirdSample := by
  unfold meanFloat64
  rw [sum_three_thirds]
  have hl : (([thirdSample, thirdSample, thirdSample].length : Nat) : ℚ) = ((3 : Nat) : ℚ) := rfl
  rw [hl, round_three]
  exact round_seven_thirds

/-- The float64 product of `3 / 10` and the mean of three samples of `7 / 3`. -/
theorem scaled_mean_three_thirds :
    roundFloat64 (roundFloat64 (roundFloat64 ((3 : Nat) : ℚ) / roundFloat64 ((10 : Nat) : ℚ)) *
      meanFloat64 [thirdSample, thirdSample, thirdSample]) =
      6305039478318695 / 9007199254740992 := by
  rw [round_three, round_ten, mean_three_thirds]
  have h1 : roundFloat64 (3 / 10) = 5404319552844595 / 18014398509481984 :=
    round_step _ _ (-2) 5404319552844595 (by norm_num) (by norm_num) (by norm_num)
      (by norm_num) (roundHalfEven_near _ _ (by norm_num) (by norm_num))
  rw [h1]
  exact round_step _ _ (-1) 6305039478318695 (by norm_num [thirdSample])
    (by norm_num [thirdSample]) (by norm_num) (by norm_num)
    (roundHalfEven_near _ _ (by norm_num [thirdSample]) (by norm_num [thirdSample]))

/-- The number `1` is a float64 value. -/
theorem round_one : roundFloat64 1 = 1 :=
  round_step _ _ 0 4503599627370496 (by norm_num) (by norm_num) (by norm_num) (by norm_num)
    (roundHalfEven_near _ _ (by norm_num) (by norm_num))

/-- The float64 sum of non-negative samples is non-negative. -/
theorem sumRatiosFloat64_nonneg (estimates : List ℚ) (h : ∀ x ∈ estimates, 0 ≤ x) :
    0 ≤ sumRatiosFloat64 estimates := by
  have hgen : ∀ (l : List ℚ) (a : ℚ), 0 ≤ a → (∀ x ∈ l, 0 ≤ x) →
      0 ≤ List.foldl (fun acc e => roundFloat64 (acc + e)) a l := by
    intro l
    induction l with
    | nil =>
      intro a ha _
      simpa using ha
    | cons x rest ih =>
      intro a ha hl
      simp only [List.foldl]
      exact ih _ (roundFloat64_nonneg _ (add_nonneg ha (hl x (List.mem_cons_self x rest))))
        (fun y hy => hl y (List.mem_cons_of_mem x hy))
  exact hgen estimates 0 (le_refl 0) h

/-- The float64 average of non-negative samples over `T` trials does not exceed
their float64 mean when at least one and at most `T` samples were recorded. -/
theorem averageRatioFloat64_le_mean (T : Nat) (estimates : List ℚ)
    (h : ∀ x ∈ estimates, 0 ≤ x) (hk : 1 ≤ estimates.length) (hkT : estimates.length ≤ T) :
    averageRatioFloat64 T estimates ≤ meanFloat64 estimates := by
  have hsum := sumRatiosFloat64_nonneg estimates h
  have h1k : (1 : ℚ) ≤ (estimates.length : ℚ) := by exact_mod_cast hk
  have hkTq : (estimates.length : ℚ) ≤ (T : ℚ) := by exact_mod_cast hkT
  have hrk : 1 ≤ roundFloat64 (estimates.length : ℚ) := by
    have := roundFloat64_mono 1 (estimates.length : ℚ) (by norm_num) h1k
    rwa [round_one] at this
  have hrT : roundFloat64 (estimates.length : ℚ) ≤ roundFloat64 (T : ℚ) :=
    roundFloat64_mono _ _ (by linarith) hkTq
  have hdiv : sumRatiosFloat64 estimates / roundFloat64 (T : ℚ) ≤
      sumRatiosFloat64 estimates / roundFloat64 (estimates.length : ℚ) :=
    div_le_div_of_nonneg_left hsum (by linarith) hrT
  exact roundFloat64_mono _ _ (div_nonneg hsum (by linarith)) hdiv

/-- The run on `sampleNode` under `mixedRand`: four trials record the sample
`1`, six record nothing. -/
theorem mixed_run :
    ∃ report, mainWith 10 82182 sampleNode multisigScript knownRegistry mixedRand = .ok report ∧
      report.estimates = [1, 1, 1, 1] := by
  have hwin : ∀ i, 0 ≤ i → i < 0 + 10 →
      WindowHolds sampleNode sampleClassify knownRegistry 600000 (mixedRand i)
        (mixedCounts i).1 (mixedCounts i).2 := by
    intro i _ _
    by_cases hi : i < 4
    · simpa [mixedRand, mixedCounts, hi] using sampleNode_window_busy
    · simpa [mixedRand, mixedCounts, hi] using sampleNode_window_quiet
  have hrun := runTrials_of_windows sampleNode sampleClassify knownRegistry sampleClassify_input
    600000 mixedRand mixedCounts 10 0 [] hwin
  have hsamples : expectedSamples mixedCounts 10 0 [] = [1, 1, 1, 1] := by
    simp [expectedSamples, recordRatio, mixedCounts]
    norm_num
  rw [hsamples] at hrun
  have hbest : sampleNode.GetBlockCount = some 600000 := rfl
  have hrun2 : runTrials sampleNode (fun tx => isLikelyChannelCloseTx multisigScript tx sampleNode)
      knownRegistry 600000 mixedRand 10 0 [] = .ok [1, 1, 1, 1] := hrun
  exact ⟨summarize 10 82182 _, by simp only [mainWith, hbest, hrun2], rfl⟩

/-! ## The crowded node -/

/-- The block `crowdedNode` serves for a hash other than 560000. -/
theorem crowdedNode_empty_block (h : Nat) (hne : h ≠ 560000) :
    crowdedNode.GetBlock h = some { PrevBlock := h - 1, Transactions := [] } := by
  simp [crowdedNode, hne]

/-- On `crowdedNode`, a window that does not reach block 560000 is empty. -/
theorem crowdedNode_quiet_window :
    ∀ (n h : Nat), h < 560000 ∨ 560000 + n ≤ h →
      windowTransactions crowdedNode n h = some [] := by
  intro n
  induction n with
  | zero =>
    intro h _
    rfl
  | succ n ih =>
    intro h hh
    have hb := crowdedNode_empty_block h (by omega)
    have hrec : windowTransactions crowdedNode n (h - 1) = some [] := ih (h - 1) (by omega)
    simp only [windowTransactions, hb, hrec]
    rfl

/-- On `crowdedNode`, the window starting at block 560000 holds the ten closes. -/
theorem crowdedNode_busy_window :
    windowTransactions crowdedNode blocksInMonth 560000 =
      some ((List.range 10).map crowdTx) := by
  have hrec : windowTransactions crowdedNode 4319 (560000 - 1) = some [] :=
    crowdedNode_quiet_window 4319 (560000 - 1) (Or.inl (by omega))
  have hb : crowdedNode.GetBlock 560000 =
      some { PrevBlock := 560000 - 1, Transactions := (List.range 10).map crowdTx } := rfl
  have h := windowTransactions_succ crowdedNode 4319 560000
    { PrevBlock := 560000 - 1, Transactions := (List.range 10).map crowdTx } [] hb hrec
  simpa using h

/-- Every close of the crowd is flagged with capacity 1000. -/
theorem crowdTx_flagged (i : Nat) : crowdClassify (crowdTx i) = .ok (true, 1000) := by
  rfl

/-- The classifier of `main` only flags transactions that have an input. -/
theorem crowdClassify_input (tx : MsgTx) (c : Int) (h : crowdClassify tx = .ok (true, c)) :
    tx.TxIn ≠ [] :=
  flagged_has_input multisigScript crowdedNode tx c h

/-- With raw draw `0` the trial on `crowdedNode` starts at block 560000: its
window holds ten flagged transactions, three of them known to the registry. -/
theorem crowdedNode_window_busy :
    WindowHolds crowdedNode crowdClassify crowdRegistry 600000 0 10 3 := by
  refine ⟨0, 560000, (List.range 10).map crowdTx, rfl, rfl, crowdedNode_busy_window, ?_,
    rfl, rfl⟩
  intro tx htx
  obtain ⟨i, _, rfl⟩ := List.mem_map.1 htx
  exact ⟨(true, 1000), crowdTx_flagged i⟩

/-- With raw draw `5000` the trial on `crowdedNode` starts at block 565000: its
window holds no transaction. -/
theorem crowdedNode_window_quiet :
    WindowHolds crowdedNode crowdClassify crowdRegistry 600000 5000 0 0 := by
  refine ⟨5000, 565000, [], rfl, rfl, ?_, ?_, rfl, rfl⟩
  · exact crowdedNode_quiet_window blocksInMonth 565000 (Or.inr (by simp [blocksInMonth]))
  · intro tx htx
    simp at htx

/-- The run on `crowdedNode` under `crowdRand`: three trials count ten closes of
which three are public and record the ratio `7 / 3`, seven record nothing. -/
theorem crowd_run :
    ∃ report,
      mainWith 10 82182 crowdedNode multisigScript crowdRegistry crowdRand = .ok report ∧
      report.estimates = [7 / 3, 7 / 3, 7 / 3] := by
  have hwin : ∀ i, 0 ≤ i → i < 0 + 10 →
      WindowHolds crowdedNode crowdClassify crowdRegistry 600000 (crowdRand i)
        (crowdCounts i).1 (crowdCounts i).2 := by
    intro i _ _
    by_cases hi : i < 3
    · simpa [crowdRand, crowdCounts, hi] using crowdedNode_window_busy
    · simpa [crowdRand, crowdCounts, hi] using crowdedNode_window_quiet
  have hrun := runTrials_of_windows crowdedNode crowdClassify crowdRegistry crowdClassify_input
    600000 crowdRand crowdCounts 10 0 [] hwin
  have hsamples : expectedSamples crowdCounts 10 0 [] = [7 / 3, 7 / 3, 7 / 3] := by
    simp [expectedSamples, recordRatio, crowdCounts]
    norm_num
  rw [hsamples] at hrun
  have hbest : crowdedNode.GetBlockCount = some 600000 := rfl
  have hrun2 : runTrials crowdedNode
      (fun tx => isLikelyChannelCloseTx multisigScript tx crowdedNode)
      crowdRegistry 600000 crowdRand 10 0 [] = .ok [7 / 3, 7 / 3, 7 / 3] := hrun
  exact ⟨summarize 10 82182 _, by simp only [mainWith, hbest, hrun2], rfl⟩

/-! ## The reported average -/

/-- Claim C7, refuted as stated: on `crowdedNode`, three of ten trials record the
ratio `7 / 3`.  In float64 the three samples add up to `7` and the reported
average `7 / 10` is `0.7` (just below seven tenths), while `3 / 10` times the
mean of the samples is `0.7000000000000001` when computed in float64, and is
again another number when computed exactly, from the float64 sum or from the
samples themselves. -/
theorem average_differs_from_scaled_mean :
    ∃ report,
      mainWith 10 82182 crowdedNode multisigScript crowdRegistry crowdRand = .ok report ∧
      float64Samples report.estimates = [thirdSample, thirdSample, thirdSample] ∧
      averageRatioFloat64 10 (float64Samples report.estimates) =
        3152519739159347 / 4503599627370496 ∧
      roundFloat64 (roundFloat64 (roundFloat64 ((3 : Nat) : ℚ) / roundFloat64 ((10 : Nat) : ℚ)) *
        meanFloat64 (float64Samples report.estimates)) =
          6305039478318695 / 9007199254740992 ∧
      averageRatioFloat64 10 (float64Samples report.estimates) ≠
        roundFloat64 (roundFloat64 (roundFloat64 ((3 : Nat) : ℚ) / roundFloat64 ((10 : Nat) : ℚ)) *
          meanFloat64 (float64Samples report.estimates)) ∧
      averageRatioFloat64 10 (float64Samples report.estimates) ≠
        (3 / 10) * (sumRatiosFloat64 (float64Samples report.estimates) / 3) ∧
      averageRatioFloat64 10 (float64Samples report.estimates) ≠
        (3 / 10) * ((float64Samples report.estimates).sum / 3) := by
  obtain ⟨report, hrun, hest⟩ := crowd_run
  have hs : float64Samples report.estimates = [thirdSample, thirdSample, thirdSample] := by
    rw [hest]
    simp [float64Samples, round_seven_thirds]
  refine ⟨report, hrun, hs, ?_, ?_, ?_, ?_, ?_⟩
  · rw [hs]
    exact average_three_thirds
  · rw [hs]
    exact scaled_mean_three_thirds
  · rw [hs, average_three_thirds, scaled_mean_three_thirds]
    norm_num
  · rw [hs, average_three_thirds, sum_three_thirds]
    norm_num
  · rw [hs, average_three_thirds]
    norm_num [thirdSample]

/-- Claim C7, as amended: for every run of `T` trials, the reported average is
the float64 sum of the recorded samples divided in float64 by the trial count
`T`, whatever the number `k` of recorded samples; `k` is at most `T`; when
`1 ≤ k` the average does not exceed the float64 mean of the samples (the same
sum divided by `k`); when every trial recorded a sample it is that mean. -/
theorem average_float64_of_run (T : Nat) (K : Int) (client : Client) (txscript : TxScript)
    (isPublicChannel : OutPoint → Bool) (rand : Nat → Nat) (report : Report)
    (hrun : mainWith T K client txscript isPublicChannel rand = .ok report) :
    averageRatioFloat64 T (float64Samples report.estimates) =
      roundFloat64 (sumRatiosFloat64 (float64Samples report.estimates) /
        roundFloat64 (T : ℚ)) ∧
    (float64Samples report.estimates).length ≤ T ∧
    (1 ≤ (float64Samples report.estimates).length →
      averageRatioFloat64 T (float64Samples report.estimates) ≤
        meanFloat64 (float64Samples report.estimates)) ∧
    ((float64Samples report.estimates).length = T →
      averageRatioFloat64 T (float64Samples report.estimates) =
        meanFloat64 (float64Samples report.estimates)) := by
  obtain ⟨best_height, estimates, _, hr, hrep⟩ :=
    report_of_run T K client txscript isPublicChannel rand report hrun
  obtain ⟨hnonneg, hlen⟩ := runTrials_samples client _ isPublicChannel best_height rand T 0 []
    estimates hr (by simp)
  have hest : report.estimates = estimates := by
    rw [hrep]
    rfl
  have hlen2 : (float64Samples report.estimates).length ≤ T := by
    rw [hest]
    simpa [float64Samples] using hlen
  have hnn : ∀ x ∈ float64Samples report.estimates, 0 ≤ x := by
    intro x hx
    rw [hest] at hx
    obtain ⟨y, hy, rfl⟩ := List.mem_map.1 hx
    exact roundFloat64_nonneg y (hnonneg y hy)
  refine ⟨rfl, hlen2, ?_, ?_⟩
  · intro hk
    exact averageRatioFloat64_le_mean T _ hnn hk hlen2
  · intro hk
    unfold averageRatioFloat64 meanFloat64
    rw [hk]

/-- The witness of claim C7: on `sampleNode` under `mixedRand`, ten trials record
four samples of value `1`; the float64 average is `0.4`, below the mean `1`. -/
theorem average_float64_of_run_witness :
    ∃ report,
      mainWith 10 82182 sampleNode multisigScript knownRegistry mixedRand = .ok report ∧
      float64Samples report.estimates = [1, 1, 1, 1] ∧
      averageRatioFloat64 10 (float64Samples report.estimates) ≤
        meanFloat64 (float64Samples report.estimates) := by
  obtain ⟨report, hrun, hest⟩ := mixed_run
  have hs : float64Samples report.estimates = [1, 1, 1, 1] := by
    rw [hest]
    simp [float64Samples, round_one]
  have h := average_float64_of_run 10 82182 sampleNode multisigScript knownRegistry mixedRand
    report hrun
  exact ⟨report, hrun, hs, h.2.2.1 (by rw [hs]; decide)⟩

/-! ## End to end -/

/-- Claim C9: with trial count 3, when each of the three sampled windows holds
exactly two flagged transactions of which exactly one is known to the registry,
every trial records the sample `1`, the average ratio is `1`, and the estimate
is the known public channel count. -/
theorem three_windows_estimate (K : Int) (client : Client) (txscript : TxScript)
    (isPublicChannel : OutPoint → Bool) (rand : Nat → Nat) (best_height : Int)
    (hbest : client.GetBlockCount = some best_height)
    (hwin : ∀ tr, tr < 3 →
      WindowHolds client (fun tx => isLikelyChannelCloseTx txscript tx client) isPublicChannel
        best_height (rand tr) 2 1) :
    mainWith 3 K client txscript isPublicChannel rand =
      .ok { estimates := [1, 1, 1], avg_ratio := 1, estimate := K } := by
  have hrun := runTrials_of_windows client
    (fun tx => isLikelyChannelCloseTx txscript tx client) isPublicChannel
    (fun tx c h => flagged_has_input txscript client tx c h)
    best_height rand (fun _ => (2, 1)) 3 0 []
    (fun i _ hi => hwin i (by omega))
  have hsamples : expectedSamples (fun _ => (2, 1)) 3 0 [] = [1, 1, 1] := by
    simp [expectedSamples, recordRatio]
    norm_num
  rw [hsamples] at hrun
  have havg : averageRatio 3 [1, 1, 1] = 1 := by
    rw [averageRatio, sumRatios_eq_sum]
    norm_num
  have hest : truncate ((K : ℚ) * 1) = K := by
    rw [mul_one]
    exact truncate_intCast K
  simp only [mainWith, hbest, hrun, summarize, havg, hest]

/-- The witness of claim C9: three trials on `sampleNode`, each starting at
block 560000. -/
theorem three_windows_estimate_witness :
    mainWith 3 82182 sampleNode multisigScript knownRegistry (fun _ => 0) =
      .ok { estimates := [1, 1, 1], avg_ratio := 1, estimate := 82182 } :=
  three_windows_estimate 82182 sampleNode multisigScript knownRegistry (fun _ => 0) 600000 rfl
    (fun _ _ => sampleNode_window_busy)

/-! ## A registry that knows nothing -/

/-- With a registry that answers `false`, no transaction is confirmed. -/
theorem confirmed_count_silent (classify : MsgTx → Except Fault (Bool × Int))
    (isPublicChannel : OutPoint → Bool) (hreg : ∀ op, isPublicChannel op = false)
    (txs : List MsgTx) : txs.countP (isConfirmed classify isPublicChannel) = 0 := by
  rw [List.countP_eq_zero]
  intro tx _
  unfold isConfirmed
  cases tx.TxIn with
  | nil => simp
  | cons txIn0 rest => simp [hreg]

/-- With a registry that answers `false`, one transaction leaves the public
tally alone. -/
theorem countTx_silent (classify : MsgTx → Except Fault (Bool × Int))
    (isPublicChannel : OutPoint → Bool) (hreg : ∀ op, isPublicChannel op = false)
    (c c1 : Counters) (tx : MsgTx) (h : countTx classify isPublicChannel c tx = .ok c1) :
    c1.public_channel_close_tx_cnt = c.public_channel_close_tx_cnt := by
  unfold countTx at h
  split at h
  · simp at h
  · split at h
    · split at h
      · simp at h
      · simp [hreg] at h
        subst h
        rfl
    · simp at h
      subst h
      rfl

/-- With a registry that answers `false`, a scan leaves the public tally
alone. -/
theorem scan_silent (classify : MsgTx → Except Fault (Bool × Int))
    (isPublicChannel : OutPoint → Bool) (hreg : ∀ op, isPublicChannel op = false) :
    ∀ (txs : List MsgTx) (c c1 : Counters),
      scanTransactions classify isPublicChannel c txs = .ok c1 →
      c1.public_channel_close_tx_cnt = c.public_channel_close_tx_cnt := by
  intro txs
  induction txs with
  | nil =>
    intro c c1 h
    simp [scanTransactions] at h
    rw [h]
  | cons tx rest ih =>
    intro c c1 h
    unfold scanTransactions at h
    split at h
    · simp at h
    · rename_i c2 hc2
      rw [ih c2 c1 h, countTx_silent classify isPublicChannel hreg c c2 tx hc2]

/-- With a registry that answers `false`, a walk leaves the public tally
alone. -/
theorem walk_silent (client : Client) (classify : MsgTx → Except Fault (Bool × Int))
    (isPublicChannel : OutPoint → Bool) (hreg : ∀ op, isPublicChannel op = false) :
    ∀ (n : Nat) (h : Hash) (c c1 : Counters) (fetched : List (Hash × MsgBlock)),
      walkWindow client classify isPublicChannel n h c = .ok (c1, fetched) →
      c1.public_channel_close_tx_cnt = c.public_channel_close_tx_cnt := by
  intro n
  induction n with
  | zero =>
    intro h c c1 fetched hw
    simp [walkWindow] at hw
    rw [hw.1]
  | succ n ih =>
    intro h c c1 fetched hw
    unfold walkWindow at hw
    split at hw
    · simp at hw
    · rename_i b hb
      split at hw
      · simp at hw
      · rename_i c2 hc2
        split at hw
        · simp at hw
        · rename_i c3 fetched3 hw3
          simp at hw
          rw [← hw.1, ih b.PrevBlock c2 c3 fetched3 hw3,
            scan_silent classify isPublicChannel hreg b.Transactions c c2 hc2]

/-- With a registry that answers `false`, a trial that completes records
nothing. -/
theorem trial_silent (client : Client) (classify : MsgTx → Except Fault (Bool × Int))
    (isPublicChannel : OutPoint → Bool) (hreg : ∀ op, isPublicChannel op = false)
    (best_height : Int) (estimates estimates1 : List ℚ) (raw : Nat)
    (h : trial client classify isPublicChannel best_height estimates raw = .ok estimates1) :
    estimates1 = estimates := by
  unfold trial at h
  split at h
  · simp at h
  · rename_i c fetched hs
    simp at h
    subst h
    have hp : c.public_channel_close_tx_cnt = 0 := by
      unfold sampleWindow at hs
      split at hs
      · simp at hs
      · split at hs
        · simp at hs
        · have := walk_silent client classify isPublicChannel hreg blocksInMonth _ zeroCounters
            c fetched hs
          simpa [zeroCounters] using this
    simp [recordRatio, hp]

/-- With a registry that answers `false`, a loop over trials that completes
records nothing. -/
theorem runTrials_silent (client : Client) (classify : MsgTx → Except Fault (Bool × Int))
    (isPublicChannel : OutPoint → Bool) (hreg : ∀ op, isPublicChannel op = false)
    (best_height : Int) (rand : Nat → Nat) :
    ∀ (n tr : Nat) (estimates estimates1 : List ℚ),
      runTrials client classify isPublicChannel best_height rand n tr estimates = .ok estimates1 →
      estimates1 = estimates := by
  intro n
  induction n with
  | zero =>
    intro tr estimates estimates1 h
    simp [runTrials] at h
    exact h.symm
  | succ n ih =>
    intro tr estimates estimates1 h
    unfold runTrials at h
    split at h
    · simp at h
    · rename_i est2 ht
      rw [ih (tr + 1) est2 estimates1 h,
        trial_silent client classify isPublicChannel hreg best_height estimates est2 (rand tr) ht]

/-- A node that serves every hash has a window for every start. -/
theorem window_exists (client : Client) (hblock : ∀ h, ∃ b, client.GetBlock h = some b) :
    ∀ (n : Nat) (h : Hash), ∃ txs, windowTransactions client n h = some txs ∧
      ∀ tx ∈ txs, ∃ h2 b, client.GetBlock h2 = some b ∧ tx ∈ b.Transactions := by
  intro n
  induction n with
  | zero =>
    intro h
    exact ⟨[], rfl, by simp⟩
  | succ n ih =>
    intro h
    obtain ⟨b, hb⟩ := hblock h
    obtain ⟨txs, htxs, hmem⟩ := ih b.PrevBlock
    refine ⟨b.Transactions ++ txs, windowTransactions_succ client n h b txs hb htxs, ?_⟩
    intro tx htx
    rcases List.mem_append.1 htx with h1 | h1
    · exact ⟨h, b, hb, h1⟩
    · exact hmem tx h1

/-- The summary of a run without samples. -/
theorem summarize_nil (T : Nat) (K : Int) :
    summarize T K [] = { estimates := [], avg_ratio := 0, estimate := 0 } := by
  simp [summarize, averageRatio, sumRatios, truncate]

/-- On a chain higher than `startBlock`, whose node serves every height and
hash, and whose block transactions the classifier returns on, the window of every
draw is fetched in full. -/
theorem window_holds_of_serving (client : Client)
    (classify : MsgTx → Except Fault (Bool × Int)) (isPublicChannel : OutPoint → Bool)
    (best_height : Int) (raw : Nat) (hpos : startBlock < best_height)
    (hhash : ∀ n, ∃ h, client.GetBlockHash n = some h)
    (hblock : ∀ h, ∃ b, client.GetBlock h = some b)
    (hcls : ∀ h b, client.GetBlock h = some b → ∀ tx ∈ b.Transactions,
      ∃ r, classify tx = .ok r) :
    ∃ flagged confirmed,
      WindowHolds client classify isPublicChannel best_height raw flagged confirmed := by
  obtain ⟨h, hh⟩ := hhash ((raw : Int) % (best_height - startBlock) + startBlock)
  obtain ⟨txs, hw, hmem⟩ := window_exists client hblock blocksInMonth h
  refine ⟨_, _, _, h, txs, ?_, hh, hw, ?_, rfl, rfl⟩
  · have hn : ¬ best_height - startBlock ≤ 0 := by omega
    simp [Intn, hn]
  · intro tx htx
    obtain ⟨h2, b, hb, hin⟩ := hmem tx htx
    exact hcls h2 b hb tx hin

/-- With a registry that answers `false`, the loop over trials completes on such
a chain and records nothing. -/
theorem runTrials_completes_silent (client : Client)
    (classify : MsgTx → Except Fault (Bool × Int)) (isPublicChannel : OutPoint → Bool)
    (hin : ∀ tx c, classify tx = .ok (true, c) → tx.TxIn ≠ [])
    (hreg : ∀ op, isPublicChannel op = false)
    (best_height : Int) (rand : Nat → Nat) (hpos : startBlock < best_height)
    (hhash : ∀ n, ∃ h, client.GetBlockHash n = some h)
    (hblock : ∀ h, ∃ b, client.GetBlock h = some b)
    (hcls : ∀ h b, client.GetBlock h = some b → ∀ tx ∈ b.Transactions,
      ∃ r, classify tx = .ok r) :
    ∀ (n tr : Nat) (estimates : List ℚ),
      runTrials client classify isPublicChannel best_height rand n tr estimates =
        .ok estimates := by
  intro n
  induction n with
  | zero =>
    intro tr estimates
    rfl
  | succ n ih =>
    intro tr estimates
    obtain ⟨flagged, confirmed, hw⟩ := window_holds_of_serving client classify isPublicChannel
      best_height (rand tr) hpos hhash hblock hcls
    have ht := trial_of_window client classify isPublicChannel hin best_height estimates
      (rand tr) flagged confirmed hw
    have hsame := trial_silent client classify isPublicChannel hreg best_height estimates _
      (rand tr) ht
    rw [hsame] at ht
    simp only [runTrials, ht]
    exact ih (tr + 1) estimates

/-- Claim C10: when the registry answers `false` to every query, then for every
chain and classifier no trial records a sample, and a run that completes reports
sum `0`, average `0` and estimate `0`; once the trials have run, the averaging
and scaling always complete with that report; and the whole run completes
whenever the chain is higher than `startBlock`, the node serves every height and
hash, and the classifier returns on the transactions of the blocks. -/
theorem silent_registry_estimate (T : Nat) (K : Int) (client : Client) (txscript : TxScript)
    (isPublicChannel : OutPoint → Bool) (rand : Nat → Nat)
    (hreg : ∀ op, isPublicChannel op = false) :
    (∀ report, mainWith T K client txscript isPublicChannel rand = .ok report →
      report.estimates = [] ∧ sumRatios report.estimates = 0 ∧ report.avg_ratio = 0 ∧
        report.estimate = 0) ∧
    (∀ best_height estimates, client.GetBlockCount = some best_height →
      runTrials client (fun tx => isLikelyChannelCloseTx txscript tx client) isPublicChannel
        best_height rand T 0 [] = .ok estimates →
      mainWith T K client txscript isPublicChannel rand =
        .ok { estimates := [], avg_ratio := 0, estimate := 0 }) ∧
    (∀ best_height, client.GetBlockCount = some best_height → startBlock < best_height →
      (∀ n, ∃ h, client.GetBlockHash n = some h) →
      (∀ h, ∃ b, client.GetBlock h = some b) →
      (∀ h b, client.GetBlock h = some b → ∀ tx ∈ b.Transactions,
        ∃ r, isLikelyChannelCloseTx txscript tx client = .ok r) →
      mainWith T K client txscript isPublicChannel rand =
        .ok { estimates := [], avg_ratio := 0, estimate := 0 }) := by
  refine ⟨?_, ?_, ?_⟩
  · intro report hrun
    obtain ⟨best_height, estimates, _, hr, hrep⟩ :=
      report_of_run T K client txscript isPublicChannel rand report hrun
    have hnil : estimates = [] := runTrials_silent client _ isPublicChannel hreg best_height
      rand T 0 [] estimates hr
    rw [hrep, hnil, summarize_nil]
    simp [sumRatios]
  · intro best_height estimates hbest hr
    have hnil : estimates = [] := runTrials_silent client _ isPublicChannel hreg best_height
      rand T 0 [] estimates hr
    rw [hnil] at hr
    simp only [mainWith, hbest, hr, summarize_nil]
  · intro best_height hbest hpos hhash hblock hcls
    have hrun := runTrials_completes_silent client
      (fun tx => isLikelyChannelCloseTx txscript tx client) isPublicChannel
      (fun tx c h => flagged_has_input txscript client tx c h) hreg best_height rand hpos
      hhash hblock hcls T 0 []
    simp only [mainWith, hbest, hrun, summarize_nil]

/-- The witness of claim C10: the ten trials of `main` on `sampleNode`, each
finding two closes, with a registry that knows none of them. -/
theorem silent_registry_estimate_witness :
    main sampleNode multisigScript (fun _ => false) (fun _ => 0) =
      .ok { estimates := [], avg_ratio := 0, estimate := 0 } :=
  (silent_registry_estimate 10 82182 sampleNode multisigScript (fun _ => false) (fun _ => 0)
    (fun _ => rfl)).2.2 600000 rfl (by decide) (fun n => ⟨n.toNat, rfl⟩)
    (fun h => ⟨_, rfl⟩) sampleNode_classifier_returns

end LndPrivateChannels
